import Mathlib

/-!
# Verification of the anvil-core request decoding and node spawning logic

This file embeds, in Lean 4, the parts of the repository that the claims
are about:

* `src/anvil/anvil-core/src/eth/mod.rs` — the serde-derived decoder for the
  adjacently tagged enum `EthRequest` (`#[serde(tag = "method", content =
  "params")]`), together with the helper functions `deserialize_number`,
  `deserialize_number_opt` and the module `sequence`.
* `src/node/src/lib.rs` — the `spawn` function: mining-mode selection,
  the loopback socket, and the `tokio::select!` supervision loop.
* The ledger snapshot/revert behaviour (the in-memory backend is not under
  `src/`, so it is modelled from the spec).

JSON values are modelled with non-negative integer numerics: every numeric
payload the claims quantify over is a non-negative integer, and the decoders
below reject all other shapes exactly as the source does on those inputs.
-/

namespace Spec2Proof

/-- A JSON value.  Numbers are modelled as non-negative integers (the claims
only quantify over non-negative integer numerics; fractional or negative
numbers are rejected by every numeric decoder in the source on the
parameters involved). -/
inductive Json where
  | null : Json
  | bool (b : Bool) : Json
  | num (n : Nat) : Json
  | str (s : String) : Json
  | arr (elems : List Json) : Json
  | obj (fields : List (String × Json)) : Json

/-- Decode errors, mirroring the distinct serde error paths that the source
can produce while decoding an `EthRequest`. -/
inductive DecodeError where
  /-- serde `invalid_type` (e.g. a sequence where a unit or string was
  expected, a hex string where a `u64` was expected). -/
  | invalidType : DecodeError
  /-- serde `invalid_length` from a tuple variant whose params sequence has
  too few or too many elements. -/
  | invalidLength : DecodeError
  /-- a malformed value (bad hex digits, wrong fixed-hash length,
  out-of-range number). -/
  | invalidValue : DecodeError
  /-- the method name matches no variant (serde `unknown_variant`). -/
  | unknownVariant : DecodeError
  /-- adjacently tagged enum: the `params` content is missing but the
  variant is not a unit variant (serde `missing field`). -/
  | missingParams : DecodeError
  /-- `sequence::deserialize`: "expected params sequence with length 1 but
  got {n}". -/
  | sequenceLength (got : Nat) : DecodeError

/-! ## Hex parsing (the `0x`-prefixed big-endian hex strings used by the
`impl-serde` deserializers of `U256`, `H256`, `H160`, `H64`, `Bytes`). -/

/-- The numeric value of one hex digit character, `none` for a non-digit. -/
def hexVal (c : Char) : Option Nat :=
  if '0' ≤ c ∧ c ≤ '9' then some (c.toNat - '0'.toNat)
  else if 'a' ≤ c ∧ c ≤ 'f' then some (c.toNat - 'a'.toNat + 10)
  else if 'A' ≤ c ∧ c ≤ 'F' then some (c.toNat - 'A'.toNat + 10)
  else none

/-- The hex-digit values of a list of characters; `none` if any character
is not a hex digit. -/
def hexValList : List Char → Option (List Nat)
  | [] => some []
  | c :: cs =>
    match hexVal c with
    | none => none
    | some d => (hexValList cs).map (d :: ·)

/-- Big-endian value of a list of hex digit characters; `none` if any
character is not a hex digit. -/
def parseHexDigits (cs : List Char) : Option Nat :=
  (hexValList cs).map (List.foldl (fun a d => a * 16 + d) 0)

/-- Strip the mandatory `0x` prefix of a hex string, returning the digit
characters. -/
def hexPayload (s : String) : Option (List Char) :=
  match s.toList with
  | '0' :: 'x' :: rest => some rest
  | _ => none

/-- The lower-case hex digit character for a value `< 16` (as produced by a
client writing a quantity). -/
def hexDigitChar (d : Nat) : Char :=
  (String.toList "0123456789abcdef").getD d '0'

/-- The big-endian hex digit characters of a natural number (`['0']` for
zero). -/
def hexDigitsOf (n : Nat) : List Char :=
  if n = 0 then ['0'] else (Nat.digits 16 n).reverse.map hexDigitChar

/-- The canonical `0x`-prefixed big-endian hex string of a natural number,
e.g. `hexString 255 = "0xff"`. -/
def hexString (n : Nat) : String :=
  ⟨'0' :: 'x' :: hexDigitsOf n⟩

/-! ## Primitive deserializers of the external types used by `EthRequest`.

These mirror the serde implementations of the `ethers_core` types consumed
by `eth/mod.rs`: fixed hashes and `U256` deserialize from `0x`-prefixed hex
strings only; `u64` and `bool` deserialize from the corresponding native
JSON values only. -/

/-- `Address` (`H160`) values, represented by their numeric value. -/
abbrev Address := Nat

/-- `H256` / `TxHash` values, represented by their numeric value. -/
abbrev H256 := Nat

/-- `U256` values, represented by their numeric value. -/
abbrev U256 := Nat

/-- `serde` deserialization of a `u64`: a native JSON number in range;
strings (hex or otherwise) are rejected with `invalid_type`. -/
def decodeU64 (j : Json) : Except DecodeError Nat :=
  match j with
  | .num n => if n < 2 ^ 64 then .ok n else .error .invalidValue
  | _ => .error .invalidType

/-- `serde` deserialization of a `bool`. -/
def decodeBool (j : Json) : Except DecodeError Bool :=
  match j with
  | .bool b => .ok b
  | _ => .error .invalidType

/-- `impl-serde` deserialization of a `U256`: a `0x`-prefixed hex string of
1 to 64 hex digits; native numbers are rejected with `invalid_type`. -/
def decodeU256 (j : Json) : Except DecodeError U256 :=
  match j with
  | .str s =>
    match hexPayload s with
    | some ds =>
      if ds.length = 0 ∨ 64 < ds.length then .error .invalidValue
      else
        match parseHexDigits ds with
        | some v => .ok v
        | none => .error .invalidValue
    | none => .error .invalidValue
  | _ => .error .invalidType

/-- `impl-serde` deserialization of a fixed-size hash (`H160`, `H256`,
`H64`): a `0x`-prefixed hex string of exactly `2 * bytes` hex digits. -/
def decodeFixedHash (digits : Nat) (j : Json) : Except DecodeError Nat :=
  match j with
  | .str s =>
    match hexPayload s with
    | some ds =>
      if ds.length = digits then
        match parseHexDigits ds with
        | some v => .ok v
        | none => .error .invalidValue
      else .error .invalidValue
    | none => .error .invalidValue
  | _ => .error .invalidType

/-- Deserialization of an `Address` (`H160`): 40 hex digits. -/
def decodeAddress (j : Json) : Except DecodeError Address :=
  decodeFixedHash 40 j

/-- Deserialization of an `H256` / `TxHash`: 64 hex digits. -/
def decodeH256 (j : Json) : Except DecodeError H256 :=
  decodeFixedHash 64 j

/-- Deserialization of an `H64`: 16 hex digits. -/
def decodeH64 (j : Json) : Except DecodeError Nat :=
  decodeFixedHash 16 j

/-- `ethers_core::types::BlockNumber`: the tags `latest`, `earliest`,
`pending`, or a hex-encoded block number. -/
inductive BlockNumber where
  | latest : BlockNumber
  | earliest : BlockNumber
  | pending : BlockNumber
  | number (n : Nat) : BlockNumber

/-- Deserialization of a `BlockNumber`: one of the three tag strings or a
`0x`-prefixed hex quantity (a `U64`, at most 16 digits). -/
def decodeBlockNumber (j : Json) : Except DecodeError BlockNumber :=
  match j with
  | .str s =>
    if s = "latest" then .ok .latest
    else if s = "earliest" then .ok .earliest
    else if s = "pending" then .ok .pending
    else
      match hexPayload s with
      | some ds =>
        if ds.length = 0 ∨ 16 < ds.length then .error .invalidValue
        else
          match parseHexDigits ds with
          | some v => .ok (.number v)
          | none => .error .invalidValue
      | none => .error .invalidValue
  | _ => .error .invalidType

/-- serde deserialization of an `Option<T>`: JSON `null` is `None`, any
other value is decoded by the inner deserializer. -/
def decodeOption {α : Type} (dec : Json → Except DecodeError α) (j : Json) :
    Except DecodeError (Option α) :=
  match j with
  | .null => .ok none
  | _ => dec j |>.map some

/-- `ethers_core::types::Index`: a transaction/uncle index, from a native
number or a hex quantity string. -/
def decodeIndex (j : Json) : Except DecodeError Nat :=
  match j with
  | .num n => if n < 2 ^ 64 then .ok n else .error .invalidValue
  | .str s =>
    match hexPayload s with
    | some ds =>
      if ds.length = 0 ∨ 16 < ds.length then .error .invalidValue
      else
        match parseHexDigits ds with
        | some v => .ok v
        | none => .error .invalidValue
    | none => .error .invalidValue
  | _ => .error .invalidType

/-- `ethers_core::types::Bytes`: a `0x`-prefixed hex string with an even
number of digits, represented as the list of byte values. -/
def nibblesToBytes : List Nat → Option (List Nat)
  | [] => some []
  | a :: b :: rest => (nibblesToBytes rest).map ((a * 16 + b) :: ·)
  | [_] => none

/-- Deserialization of `Bytes`. -/
def decodeBytes (j : Json) : Except DecodeError (List Nat) :=
  match j with
  | .str s =>
    match hexPayload s with
    | some ds =>
      match hexValList ds with
      | some ns =>
        match nibblesToBytes ns with
        | some bs => .ok bs
        | none => .error .invalidValue
      | none => .error .invalidValue
    | none => .error .invalidValue
  | _ => .error .invalidType

/-- An `f64` entry of `eth_feeHistory`'s reward-percentile list.  Within
this model's JSON values every number is a non-negative integer, which a
serde `f64` accepts. -/
def decodeF64 (j : Json) : Except DecodeError Nat :=
  match j with
  | .num n => .ok n
  | _ => .error .invalidType

/-! ## Payload types whose definitions live outside `src/`

`CallRequest` (`eth/call.rs`), `EthTransactionRequest`
(`eth/transaction.rs`), `Filter` (`eth/filter.rs`), and the `types` module
(`Forking`, `EvmMineOptions`, `Index`) are referenced by `eth/mod.rs` but
their files are not under `src/`; they are modelled from the spec. -/

/-- Modelled from the spec: a structured call request ("execute a call or
estimate gas against a block tag without persisting state").  `call.rs` is
not under `src/`; the claims never inspect its fields, so it records the
raw JSON object fields and decodes from any JSON object. -/
structure CallRequest where
  fields : List (String × Json)

/-- Deserialization of a `CallRequest` from a JSON object. -/
def decodeCallRequest (j : Json) : Except DecodeError CallRequest :=
  match j with
  | .obj fs => .ok ⟨fs⟩
  | _ => .error .invalidType

/-- Modelled from the spec: a structured transaction request ("submit a raw
or structured transaction").  `transaction.rs` is not under `src/`; the
claims never inspect its fields. -/
structure EthTransactionRequest where
  fields : List (String × Json)

/-- Deserialization of an `EthTransactionRequest` from a JSON object. -/
def decodeTransactionRequest (j : Json) : Except DecodeError EthTransactionRequest :=
  match j with
  | .obj fs => .ok ⟨fs⟩
  | _ => .error .invalidType

/-- Modelled from the spec: a log filter ("fetch logs matching a filter").
`filter.rs` is not under `src/`; the claims never inspect its fields. -/
structure Filter where
  fields : List (String × Json)

/-- Deserialization of a `Filter` from a JSON object. -/
def decodeFilter (j : Json) : Except DecodeError Filter :=
  match j with
  | .obj fs => .ok ⟨fs⟩
  | _ => .error .invalidType

/-- Lookup of a key in a JSON object's field list. -/
def jsonLookup : List (String × Json) → String → Option Json
  | [], _ => none
  | (k, v) :: rest, key => if k = key then some v else jsonLookup rest key

/-- Modelled from the spec: the remote fork origin inside a `Forking`
config — "a remote chain id + block number"; the reset test in
`eth/mod.rs` shows the keys `jsonRpcUrl` and `blockNumber`. -/
structure ForkConfig where
  jsonRpcUrl : Option String
  blockNumber : Option Nat

/-- Modelled from the spec: the optional fork config of `forge_reset`
("reset (optionally re-fork) the ledger").  `types.rs` is not under
`src/`; per the test in `eth/mod.rs` it decodes from an object with an
optional `forking` entry. -/
structure Forking where
  forking : Option ForkConfig

/-- Deserialization of a `ForkConfig` from a JSON object. -/
def decodeForkConfig (j : Json) : Except DecodeError ForkConfig :=
  match j with
  | .obj fs => do
    let url ← match jsonLookup fs "jsonRpcUrl" with
      | none => pure none
      | some (.str s) => pure (some s)
      | some _ => Except.error .invalidType
    let bn ← match jsonLookup fs "blockNumber" with
      | none => pure none
      | some (.num n) => pure (some n)
      | some _ => Except.error .invalidType
    pure ⟨url, bn⟩
  | _ => .error .invalidType

/-- Deserialization of a `Forking` from a JSON object. -/
def decodeForking (j : Json) : Except DecodeError Forking :=
  match j with
  | .obj fs =>
    match jsonLookup fs "forking" with
    | none => .ok ⟨none⟩
    | some sub => (decodeForkConfig sub).map (fun c => ⟨some c⟩)
  | _ => .error .invalidType

/-- Modelled from the spec: the options of the explicit mining operation
("mine with explicit options (count, interval)").  `types.rs` is not under
`src/`; per the tests in `eth/mod.rs` it decodes from a bare numeric value
or from an object with the optional keys `timestamp` and `blocks`. -/
structure EvmMineOptions where
  timestamp : Option Nat
  blocks : Option Nat

/-- Deserialization of `EvmMineOptions`. -/
def decodeEvmMineOptions (j : Json) : Except DecodeError EvmMineOptions :=
  match j with
  | .num n => .ok ⟨some n, none⟩
  | .null => .ok ⟨none, none⟩
  | .obj fs => do
    let ts ← match jsonLookup fs "timestamp" with
      | none => pure none
      | some (.num n) => pure (some n)
      | some _ => Except.error .invalidType
    let bl ← match jsonLookup fs "blocks" with
      | none => pure none
      | some (.num n) => pure (some n)
      | some _ => Except.error .invalidType
    pure ⟨ts, bl⟩
  | _ => .error .invalidType

/-! ## The `EthRequest` enum (`eth/mod.rs`, lines 22–233) -/

/-- The typed operations of the JSON-RPC surface, mirroring the variants of
`EthRequest` in `eth/mod.rs` (same names, same field types in the same
order). -/
inductive EthRequest where
  | EthChainId : EthRequest
  | EthGasPrice : EthRequest
  | EthAccounts : EthRequest
  | EthBlockNumber : EthRequest
  | EthGetBalance (addr : Address) (block : Option BlockNumber) : EthRequest
  | EthGetStorageAt (addr : Address) (slot : U256) (block : Option BlockNumber) : EthRequest
  | EthGetBlockByHash (hash : H256) (full : Bool) : EthRequest
  | EthGetBlockByNumber (block : BlockNumber) (full : Bool) : EthRequest
  | EthGetTransactionCount (addr : Address) (block : Option BlockNumber) : EthRequest
  | EthGetTransactionCountByHash (hash : H256) : EthRequest
  | EthGetTransactionCountByNumber (block : BlockNumber) : EthRequest
  | EthGetUnclesCountByHash (hash : H256) : EthRequest
  | EthGetUnclesCountByNumber (block : BlockNumber) : EthRequest
  | EthGetCodeAt (addr : Address) (block : Option BlockNumber) : EthRequest
  | EthSendTransaction (tx : EthTransactionRequest) : EthRequest
  | EthSendRawTransaction (bytes : List Nat) : EthRequest
  | EthCall (call : CallRequest) (block : Option BlockNumber) : EthRequest
  | EthEstimateGas (call : CallRequest) (block : Option BlockNumber) : EthRequest
  | EthGetTransactionByHash (hash : H256) : EthRequest
  | EthGetTransactionByBlockHashAndIndex (hash : H256) (index : Nat) : EthRequest
  | EthGetTransactionByBlockNumberAndIndex (block : BlockNumber) (index : Nat) : EthRequest
  | EthGetTransactionReceipt (hash : H256) : EthRequest
  | EthGetUncleByBlockHashAndIndex (hash : H256) (index : Nat) : EthRequest
  | EthGetUncleByBlockNumberAndIndex (block : BlockNumber) (index : Nat) : EthRequest
  | EthGetLogs (filter : Filter) : EthRequest
  | EthGetWork : EthRequest
  | EthSubmitWork (nonce : Nat) (powHash : H256) (digest : H256) : EthRequest
  | EthSubmitHashRate (rate : U256) (id : H256) : EthRequest
  | EthFeeHistory (blockCount : U256) (newestBlock : BlockNumber) (percentiles : List Nat) : EthRequest
  | DebugTraceTransaction (hash : H256) : EthRequest
  | ImpersonateAccount (addr : Address) : EthRequest
  | StopImpersonatingAccount : EthRequest
  | GetAutoMine : EthRequest
  | Mine (blocks : Option U256) (interval : Option U256) : EthRequest
  | SetAutomine (enabled : Bool) : EthRequest
  | SetIntervalMining (secs : Nat) : EthRequest
  | DropTransaction (hash : H256) : EthRequest
  | Reset (fork : Forking) : EthRequest
  | SetBalance (addr : Address) (value : U256) : EthRequest
  | SetCode (addr : Address) (code : List Nat) : EthRequest
  | SetNonce (addr : Address) (nonce : U256) : EthRequest
  | SetStorageAt (addr : Address) (slot : U256) (value : U256) : EthRequest
  | SetCoinbase (addr : Address) : EthRequest
  | SetLogging (enabled : Bool) : EthRequest
  | SetMinGasPrice (price : U256) : EthRequest
  | SetNextBlockBaseFeePerGas (fee : U256) : EthRequest
  | EvmSnapshot : EthRequest
  | EvmRevert (id : U256) : EthRequest
  | EvmIncreaseTime (secs : U256) : EthRequest
  | EvmSetNextBlockTimeStamp (timestamp : Nat) : EthRequest
  | EvmMine (options : EvmMineOptions) : EthRequest

/-! ## serde decoding machinery

`EthRequest` is adjacently tagged (`tag = "method"`, `content = "params"`);
an inbound request is a method name plus an optional `params` content
value. -/

/-- An inbound request after framing: the `method` tag and the optional
`params` content of the adjacently tagged representation. -/
structure RpcCall where
  method : String
  params : Option Json

/-- `deserialize_number` (`eth/mod.rs` lines 237–254): the untagged
`Numeric` enum first tries `U256` (a hex string), then `u64` (a native
number); both branches map onto the numeric value. -/
def deserialize_number (j : Json) : Except DecodeError U256 :=
  match decodeU256 j with
  | .ok n => .ok n
  | .error _ =>
    match decodeU64 j with
    | .ok n => .ok n
    | .error e => .error e

/-- `deserialize_number_opt` (`eth/mod.rs` lines 256–274):
`Option<Numeric>` — `null` decodes to `None`, otherwise the untagged
`Numeric` applies. -/
def deserialize_number_opt (j : Json) : Except DecodeError (Option U256) :=
  match j with
  | .null => .ok none
  | _ => (deserialize_number j).map some

/-- One required tuple-variant field: serde's `next_element` that errors
with `invalid_length` when the params sequence is exhausted. -/
def reqField {α : Type} (dec : Json → Except DecodeError α) :
    List Json → Except DecodeError (α × List Json)
  | [] => .error .invalidLength
  | x :: rest => (dec x).map (fun a => (a, rest))

/-- One `#[serde(default)]` tuple-variant field: a missing element falls
back to the default instead of erroring. -/
def optField {α : Type} (dec : Json → Except DecodeError α) (dflt : α) :
    List Json → Except DecodeError (α × List Json)
  | [] => .ok (dflt, [])
  | x :: rest => (dec x).map (fun a => (a, rest))

/-- After all tuple-variant fields, serde's sequence deserializer rejects
trailing elements with `invalid_length`. -/
def endSeq : List Json → Except DecodeError Unit
  | [] => .ok ()
  | _ :: _ => .error .invalidLength

/-- The content of a tuple variant must be present and a sequence. -/
def seqContent : Option Json → Except DecodeError (List Json)
  | some (.arr xs) => .ok xs
  | some _ => .error .invalidType
  | none => .error .missingParams

/-- The content of a unit variant: absent or `null` (serde's
`Content::Unit`), anything else is an `invalid_type` error. -/
def unitContent {α : Type} (v : α) : Option Json → Except DecodeError α
  | none => .ok v
  | some .null => .ok v
  | some _ => .error .invalidType

/-- The content of a plain newtype variant is handed to the inner
deserializer directly (it is required to be present). -/
def newtypeContent {α : Type} (dec : Json → Except DecodeError α) :
    Option Json → Except DecodeError α
  | none => .error .missingParams
  | some j => dec j

/-- `Vec<T>::deserialize`: every element of the sequence is decoded in
order; the first element failure aborts. -/
def decodeVec {α : Type} (dec : Json → Except DecodeError α) :
    List Json → Except DecodeError (List α)
  | [] => .ok []
  | x :: xs => do
    let v ← dec x
    let vs ← decodeVec dec xs
    pure (v :: vs)

/-- `sequence::deserialize` (`eth/mod.rs` lines 293–306) applied as a
variant-level `with` codec: the content is decoded as a `Vec<T>` (every
element must decode), then the length must be exactly 1.  Note that a
variant-level `with` codec replaces the whole content decoding, so a
field-level `deserialize_with` on such a variant is never consulted. -/
def sequenceDecode {α : Type} (dec : Json → Except DecodeError α)
    (c : Option Json) : Except DecodeError α := do
  let xs ← seqContent c
  let vs ← decodeVec dec xs
  match vs with
  | [v] => pure v
  | _ => .error (.sequenceLength vs.length)

/-- The serde-derived decoder of `EthRequest`: dispatch on the `method`
tag (including the `hardhat_` aliases), then decode the `params` content
with the variant's codec exactly as the derive macro does — unit variants
take no content, plain newtype variants hand the content to the inner
deserializer, tuple variants read a sequence field by field (honouring
`#[serde(default)]` and field-level `deserialize_with`), and
`with = "sequence"` variants use `sequence::deserialize` for the whole
content (which therefore decodes the plain field type, bypassing any
field-level `deserialize_with`). -/
def decodeRequest (r : RpcCall) : Except DecodeError EthRequest :=
  match r.method with
  | "eth_chainId" => unitContent .EthChainId r.params
  | "eth_gasPrice" => unitContent .EthGasPrice r.params
  | "eth_accounts" => unitContent .EthAccounts r.params
  | "eth_blockNumber" => unitContent .EthBlockNumber r.params
  | "eth_getBalance" => do
    let xs ← seqContent r.params
    let (a, xs) ← reqField decodeAddress xs
    let (b, xs) ← reqField (decodeOption decodeBlockNumber) xs
    let _ ← endSeq xs
    pure (.EthGetBalance a b)
  | "eth_getStorageAt" => do
    let xs ← seqContent r.params
    let (a, xs) ← reqField decodeAddress xs
    let (k, xs) ← reqField decodeU256 xs
    let (b, xs) ← reqField (decodeOption decodeBlockNumber) xs
    let _ ← endSeq xs
    pure (.EthGetStorageAt a k b)
  | "eth_getBlockByHash" => do
    let xs ← seqContent r.params
    let (h, xs) ← reqField decodeH256 xs
    let (f, xs) ← reqField decodeBool xs
    let _ ← endSeq xs
    pure (.EthGetBlockByHash h f)
  | "eth_getBlockByNumber" => do
    let xs ← seqContent r.params
    let (b, xs) ← reqField decodeBlockNumber xs
    let (f, xs) ← reqField decodeBool xs
    let _ ← endSeq xs
    pure (.EthGetBlockByNumber b f)
  | "eth_getTransactionCount" => do
    let xs ← seqContent r.params
    let (a, xs) ← reqField decodeAddress xs
    let (b, xs) ← reqField (decodeOption decodeBlockNumber) xs
    let _ ← endSeq xs
    pure (.EthGetTransactionCount a b)
  | "eth_getBlockTransactionCountByHash" =>
    newtypeContent decodeH256 r.params |>.map .EthGetTransactionCountByHash
  | "eth_getBlockTransactionCountByNumber" =>
    newtypeContent decodeBlockNumber r.params |>.map .EthGetTransactionCountByNumber
  | "eth_getUncleCountByBlockHash" =>
    newtypeContent decodeH256 r.params |>.map .EthGetUnclesCountByHash
  | "eth_getUncleCountByBlockNumber" =>
    newtypeContent decodeBlockNumber r.params |>.map .EthGetUnclesCountByNumber
  | "eth_getCode" => do
    let xs ← seqContent r.params
    let (a, xs) ← reqField decodeAddress xs
    let (b, xs) ← reqField (decodeOption decodeBlockNumber) xs
    let _ ← endSeq xs
    pure (.EthGetCodeAt a b)
  | "eth_sendTransaction" =>
    sequenceDecode decodeTransactionRequest r.params |>.map .EthSendTransaction
  | "eth_sendRawTransaction" =>
    sequenceDecode decodeBytes r.params |>.map .EthSendRawTransaction
  | "eth_call" => do
    let xs ← seqContent r.params
    let (c, xs) ← reqField decodeCallRequest xs
    let (b, xs) ← optField (decodeOption decodeBlockNumber) none xs
    let _ ← endSeq xs
    pure (.EthCall c b)
  | "eth_estimateGas" => do
    let xs ← seqContent r.params
    let (c, xs) ← reqField decodeCallRequest xs
    let (b, xs) ← optField (decodeOption decodeBlockNumber) none xs
    let _ ← endSeq xs
    pure (.EthEstimateGas c b)
  | "eth_getTransactionByHash" =>
    sequenceDecode decodeH256 r.params |>.map .EthGetTransactionByHash
  | "eth_getTransactionByBlockHashAndIndex" => do
    let xs ← seqContent r.params
    let (h, xs) ← reqField decodeH256 xs
    let (i, xs) ← reqField decodeIndex xs
    let _ ← endSeq xs
    pure (.EthGetTransactionByBlockHashAndIndex h i)
  | "eth_getTransactionByBlockNumberAndIndex" => do
    let xs ← seqContent r.params
    let (b, xs) ← reqField decodeBlockNumber xs
    let (i, xs) ← reqField decodeIndex xs
    let _ ← endSeq xs
    pure (.EthGetTransactionByBlockNumberAndIndex b i)
  | "eth_getTransactionReceipt" =>
    sequenceDecode decodeH256 r.params |>.map .EthGetTransactionReceipt
  | "eth_getUncleByBlockHashAndIndex" => do
    let xs ← seqContent r.params
    let (h, xs) ← reqField decodeH256 xs
    let (i, xs) ← reqField decodeIndex xs
    let _ ← endSeq xs
    pure (.EthGetUncleByBlockHashAndIndex h i)
  | "eth_getUncleByBlockNumberAndIndex" => do
    let xs ← seqContent r.params
    let (b, xs) ← reqField decodeBlockNumber xs
    let (i, xs) ← reqField decodeIndex xs
    let _ ← endSeq xs
    pure (.EthGetUncleByBlockNumberAndIndex b i)
  | "eth_getLogs" =>
    newtypeContent decodeFilter r.params |>.map .EthGetLogs
  | "eth_getWork" => unitContent .EthGetWork r.params
  | "eth_submitWork" => do
    let xs ← seqContent r.params
    let (n, xs) ← reqField decodeH64 xs
    let (h1, xs) ← reqField decodeH256 xs
    let (h2, xs) ← reqField decodeH256 xs
    let _ ← endSeq xs
    pure (.EthSubmitWork n h1 h2)
  | "eth_submitHashrate" => do
    let xs ← seqContent r.params
    let (u, xs) ← reqField decodeU256 xs
    let (h, xs) ← reqField decodeH256 xs
    let _ ← endSeq xs
    pure (.EthSubmitHashRate u h)
  | "eth_feeHistory" => do
    let xs ← seqContent r.params
    let (n, xs) ← reqField deserialize_number xs
    let (b, xs) ← reqField decodeBlockNumber xs
    let (ps, xs) ← optField (fun j =>
      match j with
      | .arr es => decodeVec decodeF64 es
      | _ => .error .invalidType) [] xs
    let _ ← endSeq xs
    pure (.EthFeeHistory n b ps)
  | "debug_traceTransaction" =>
    sequenceDecode decodeH256 r.params |>.map .DebugTraceTransaction
  | "forge_impersonateAccount" | "hardhat_impersonateAccount" =>
    sequenceDecode decodeAddress r.params |>.map .ImpersonateAccount
  | "forge_stopImpersonatingAccount" | "hardhat_stopImpersonatingAccount" =>
    unitContent .StopImpersonatingAccount r.params
  | "forge_getAutomine" | "hardhat_getAutomine" =>
    unitContent .GetAutoMine r.params
  | "forge_mine" | "hardhat_mine" => do
    let xs ← seqContent r.params
    let (n, xs) ← optField deserialize_number_opt none xs
    let (i, xs) ← optField deserialize_number_opt none xs
    let _ ← endSeq xs
    pure (.Mine n i)
  | "evm_setAutomine" =>
    sequenceDecode decodeBool r.params |>.map .SetAutomine
  | "evm_setIntervalMining" =>
    sequenceDecode decodeU64 r.params |>.map .SetIntervalMining
  | "forge_dropTransaction" | "hardhat_dropTransaction" =>
    sequenceDecode decodeH256 r.params |>.map .DropTransaction
  | "forge_reset" | "hardhat_reset" =>
    sequenceDecode decodeForking r.params |>.map .Reset
  | "forge_setBalance" | "hardhat_setBalance" => do
    let xs ← seqContent r.params
    let (a, xs) ← reqField decodeAddress xs
    let (v, xs) ← reqField deserialize_number xs
    let _ ← endSeq xs
    pure (.SetBalance a v)
  | "forge_setCode" | "hardhat_setCode" => do
    let xs ← seqContent r.params
    let (a, xs) ← reqField decodeAddress xs
    let (c, xs) ← reqField decodeBytes xs
    let _ ← endSeq xs
    pure (.SetCode a c)
  | "forge_setNonce" | "hardhat_setNonce" => do
    let xs ← seqContent r.params
    let (a, xs) ← reqField decodeAddress xs
    let (v, xs) ← reqField deserialize_number xs
    let _ ← endSeq xs
    pure (.SetNonce a v)
  | "forge_setStorageAt" | "hardhat_setStorageAt" => do
    let xs ← seqContent r.params
    let (a, xs) ← reqField decodeAddress xs
    let (k, xs) ← reqField decodeU256 xs
    let (v, xs) ← reqField decodeU256 xs
    let _ ← endSeq xs
    pure (.SetStorageAt a k v)
  | "forge_setCoinbase" | "hardhat_setCoinbase" =>
    sequenceDecode decodeAddress r.params |>.map .SetCoinbase
  | "forge_setLoggingEnabled" | "hardhat_setLoggingEnabled" =>
    sequenceDecode decodeBool r.params |>.map .SetLogging
  | "forge_setMinGasPrice" | "hardhat_setMinGasPrice" =>
    sequenceDecode decodeU256 r.params |>.map .SetMinGasPrice
  | "forge_setNextBlockBaseFeePerGas" | "hardhat_setNextBlockBaseFeePerGas" =>
    sequenceDecode decodeU256 r.params |>.map .SetNextBlockBaseFeePerGas
  | "evm_snapshot" => unitContent .EvmSnapshot r.params
  | "evm_revert" =>
    sequenceDecode decodeU256 r.params |>.map .EvmRevert
  | "evm_increaseTime" =>
    sequenceDecode decodeU256 r.params |>.map .EvmIncreaseTime
  | "evm_setNextBlockTimestamp" =>
    sequenceDecode decodeU64 r.params |>.map .EvmSetNextBlockTimeStamp
  | "evm_mine" =>
    sequenceDecode decodeEvmMineOptions r.params |>.map .EvmMine
  | _ => .error .unknownVariant

/-! ## The node (`src/node/src/lib.rs`) -/

/-- The `NodeConfig` fields destructured by `spawn` (lines 46–56); the
fields `spawn` ignores (`gas_price`, genesis data, `accounts`) are omitted
as they cannot influence it.  `automine: Option<Duration>` is the optional
fixed mining interval; durations are represented by their length in
milliseconds. -/
structure NodeConfig where
  chain_id : Nat
  gas_limit : Nat
  port : Nat
  automine : Option Nat
  max_transactions : Nat

/-- The transaction pool, as far as `spawn` observes it: the set of
registered ready-listener channels (identified by registration order). -/
structure Pool where
  readyListeners : List Nat
  nextListenerId : Nat

/-- `Pool::add_ready_listener`: registers a fresh ready-listener channel
and returns it. -/
def Pool.add_ready_listener (p : Pool) : Nat × Pool :=
  (p.nextListenerId,
   { readyListeners := p.readyListeners ++ [p.nextListenerId],
     nextListenerId := p.nextListenerId + 1 })

/-- `MiningMode`: `MiningMode::interval(duration)` or
`MiningMode::instant(max_transactions, listener)`. -/
inductive MiningMode where
  | interval (duration : Nat) : MiningMode
  | instant (maxTransactions : Nat) (listener : Nat) : MiningMode

/-- The mining-mode selection in `spawn` (lines 66–71): a configured
automine interval yields `Interval` and touches the pool not at all;
otherwise a fresh ready-listener is registered and `Instant` is built over
it with the configured transaction bound. -/
def spawnMiningMode (config : NodeConfig) (pool : Pool) : MiningMode × Pool :=
  match config.automine with
  | some automine => (.interval automine, pool)
  | none =>
    let (listener, pool) := pool.add_ready_listener
    (.instant config.max_transactions listener, pool)

/-- An IP address as built by `spawn` (only v4 is constructed). -/
inductive IpAddr where
  | v4 (a b c d : Nat) : IpAddr

/-- Whether a v4 address is in the loopback block `127.0.0.0/8`. -/
def IpAddr.isLoopback : IpAddr → Bool
  | .v4 a _ _ _ => a = 127

/-- A socket address. -/
structure SocketAddr where
  ip : IpAddr
  port : Nat

/-- The socket `spawn` binds the server to (line 80):
`SocketAddr::new(IpAddr::V4(Ipv4Addr::new(127, 0, 0, 1)), port)`. -/
def spawnSocket (config : NodeConfig) : SocketAddr :=
  ⟨.v4 127 0 0 1, config.port⟩

/-- The outcome of the supervision task spawned in `spawn` (lines 85–96):
either it completed (recording which unit finished, with what result, and
after how many poll rounds), or the fuel ran out while both units were
still pending. -/
inductive TaskOutcome (R : Type) where
  | completed (fromServe : Bool) (result : R) (pollRounds : Nat) : TaskOutcome R
  | pending : TaskOutcome R

/-- The `tokio::select!` loop of `spawn` (lines 85–96), over futures
modelled as functions from poll round to completion result (`none` while
still pending).  Each round polls `serve` and `node_service` once; as soon
as either is ready the async block returns that future's result and drops
both futures, so no poll of any round `≥ pollRounds` is ever made. -/
def selectLoopAux {R : Type} (serve node : Nat → Option R) :
    Nat → Nat → TaskOutcome R
  | _, 0 => .pending
  | k, fuel + 1 =>
    match serve k with
    | some r => .completed true r (k + 1)
    | none =>
      match node k with
      | some r => .completed false r (k + 1)
      | none => selectLoopAux serve node (k + 1) fuel

/-- Running the supervision task from round 0 with the given fuel. -/
def selectLoop {R : Type} (serve node : Nat → Option R) (fuel : Nat) :
    TaskOutcome R :=
  selectLoopAux serve node 0 fuel

/-! ## Ledger snapshot/revert

The in-memory backend (`mem::Backend`) is referenced by
`src/node/src/lib.rs` but its source is not under `src/`; the following is
modelled from the spec. -/

/-- Modelled from the spec: the chain-state components that
snapshot/revert must restore — "all account balances, nonces, code,
storage, and block count" (§8), per the data model of §3. -/
structure ChainState where
  balances : Address → Nat
  nonces : Address → Nat
  code : Address → Option (List Nat)
  storage : Address → Nat → Nat
  blockCount : Nat

/-- The ledger error relevant to snapshots (§4.1, §7). -/
inductive LedgerError where
  | UnknownSnapshot : LedgerError

/-- Modelled from the spec: the ledger with snapshot support (§3
"Snapshot": an opaque, monotonically increasing identifier capturing the
full ledger state at the moment of creation; ids are never reused).  It
keeps the current state, the still-valid snapshots in creation order, and
the next id to issue. -/
structure Ledger where
  state : ChainState
  snapshots : List (Nat × ChainState)
  nextSnapshotId : Nat

/-- Modelled from the spec (§4.1): `snapshot()` returns a new snapshot id
capturing the current state. -/
def Ledger.snapshot (l : Ledger) : Nat × Ledger :=
  (l.nextSnapshotId,
   { l with
     snapshots := l.snapshots ++ [(l.nextSnapshotId, l.state)],
     nextSnapshotId := l.nextSnapshotId + 1 })

/-- Lookup of a snapshot id among the still-valid snapshots. -/
def findSnap : List (Nat × ChainState) → Nat → Option ChainState
  | [], _ => none
  | (i, s) :: rest, sid => if i = sid then some s else findSnap rest sid

/-- Modelled from the spec (§4.1): `revert(id)` fails with
`UnknownSnapshot` if `id` was never issued or was already invalidated by
an intervening revert; otherwise it restores the captured state and
invalidates all snapshot ids created after the reverted-to one. -/
def Ledger.revert (sid : Nat) (l : Ledger) : Except LedgerError Ledger :=
  match findSnap l.snapshots sid with
  | none => .error .UnknownSnapshot
  | some s =>
    .ok { l with
          state := s,
          snapshots := l.snapshots.filter (fun p => p.1 ≤ sid) }

/-- The mutations the claim lets happen between `snapshot()` and
`revert(id)`: applied blocks and administrative overrides (both touch only
the chain state, per §4.1) and further `snapshot()` calls (which issue the
later ids the claim then reverts to). -/
inductive LedgerOp where
  | mutate (f : ChainState → ChainState) : LedgerOp
  | snap : LedgerOp

/-- Applying one mutation to the ledger. -/
def applyOp : LedgerOp → Ledger → Ledger
  | .mutate f, l => { l with state := f l.state }
  | .snap, l => (Ledger.snapshot l).2

/-- Applying a sequence of mutations. -/
def applyOps : List LedgerOp → Ledger → Ledger
  | [], l => l
  | op :: ops, l => applyOps ops (applyOp op l)

/-- The snapshot ids issued while applying a sequence of mutations, in
order of issue. -/
def issuedIds : List LedgerOp → Ledger → List Nat
  | [], _ => []
  | .mutate f :: ops, l => issuedIds ops (applyOp (.mutate f) l)
  | .snap :: ops, l => (Ledger.snapshot l).1 :: issuedIds ops (applyOp .snap l)

/-! ## Arm equations of `decodeRequest`

Definitional equations extracting single dispatch arms, so later proofs
never have to reduce the whole method match. -/

/-- Dispatch arm of `eth_getBalance`. -/
theorem decodeRequest_getBalance (p : Option Json) :
    decodeRequest ⟨"eth_getBalance", p⟩ = (do
      let xs ← seqContent p
      let (a, xs) ← reqField decodeAddress xs
      let (b, xs) ← reqField (decodeOption decodeBlockNumber) xs
      let _ ← endSeq xs
      pure (.EthGetBalance a b)) := rfl

/-- Dispatch arm of `eth_getStorageAt`. -/
theorem decodeRequest_getStorageAt (p : Option Json) :
    decodeRequest ⟨"eth_getStorageAt", p⟩ = (do
      let xs ← seqContent p
      let (a, xs) ← reqField decodeAddress xs
      let (k, xs) ← reqField decodeU256 xs
      let (b, xs) ← reqField (decodeOption decodeBlockNumber) xs
      let _ ← endSeq xs
      pure (.EthGetStorageAt a k b)) := rfl

/-- Dispatch arm of `eth_getTransactionCount`. -/
theorem decodeRequest_getTransactionCount (p : Option Json) :
    decodeRequest ⟨"eth_getTransactionCount", p⟩ = (do
      let xs ← seqContent p
      let (a, xs) ← reqField decodeAddress xs
      let (b, xs) ← reqField (decodeOption decodeBlockNumber) xs
      let _ ← endSeq xs
      pure (.EthGetTransactionCount a b)) := rfl

/-- Dispatch arm of `eth_getCode`. -/
theorem decodeRequest_getCode (p : Option Json) :
    decodeRequest ⟨"eth_getCode", p⟩ = (do
      let xs ← seqContent p
      let (a, xs) ← reqField decodeAddress xs
      let (b, xs) ← reqField (decodeOption decodeBlockNumber) xs
      let _ ← endSeq xs
      pure (.EthGetCodeAt a b)) := rfl

/-- Dispatch arm of `eth_call`. -/
theorem decodeRequest_call (p : Option Json) :
    decodeRequest ⟨"eth_call", p⟩ = (do
      let xs ← seqContent p
      let (c, xs) ← reqField decodeCallRequest xs
      let (b, xs) ← optField (decodeOption decodeBlockNumber) none xs
      let _ ← endSeq xs
      pure (.EthCall c b)) := rfl

/-- Dispatch arm of `eth_estimateGas`. -/
theorem decodeRequest_estimateGas (p : Option Json) :
    decodeRequest ⟨"eth_estimateGas", p⟩ = (do
      let xs ← seqContent p
      let (c, xs) ← reqField decodeCallRequest xs
      let (b, xs) ← optField (decodeOption decodeBlockNumber) none xs
      let _ ← endSeq xs
      pure (.EthEstimateGas c b)) := rfl

/-- Dispatch arm of `eth_feeHistory`. -/
theorem decodeRequest_feeHistory (p : Option Json) :
    decodeRequest ⟨"eth_feeHistory", p⟩ = (do
      let xs ← seqContent p
      let (n, xs) ← reqField deserialize_number xs
      let (b, xs) ← reqField decodeBlockNumber xs
      let (ps, xs) ← optField (fun j =>
        match j with
        | .arr es => decodeVec decodeF64 es
        | _ => .error .invalidType) [] xs
      let _ ← endSeq xs
      pure (.EthFeeHistory n b ps)) := rfl

/-- Dispatch arm of `forge_impersonateAccount`. -/
theorem decodeRequest_impersonate (p : Option Json) :
    decodeRequest ⟨"forge_impersonateAccount", p⟩ =
      (sequenceDecode decodeAddress p).map .ImpersonateAccount := rfl

/-- Dispatch arm of `forge_stopImpersonatingAccount`. -/
theorem decodeRequest_stopImpersonate (p : Option Json) :
    decodeRequest ⟨"forge_stopImpersonatingAccount", p⟩ =
      unitContent .StopImpersonatingAccount p := rfl

/-- Dispatch arm of `forge_getAutomine`. -/
theorem decodeRequest_getAutomine (p : Option Json) :
    decodeRequest ⟨"forge_getAutomine", p⟩ = unitContent .GetAutoMine p := rfl

/-- Dispatch arm of `forge_mine`. -/
theorem decodeRequest_mine (p : Option Json) :
    decodeRequest ⟨"forge_mine", p⟩ = (do
      let xs ← seqContent p
      let (n, xs) ← optField deserialize_number_opt none xs
      let (i, xs) ← optField deserialize_number_opt none xs
      let _ ← endSeq xs
      pure (.Mine n i)) := rfl

/-- Dispatch arm of `evm_setAutomine`. -/
theorem decodeRequest_setAutomine (p : Option Json) :
    decodeRequest ⟨"evm_setAutomine", p⟩ =
      (sequenceDecode decodeBool p).map .SetAutomine := rfl

/-- Dispatch arm of `evm_setIntervalMining`. -/
theorem decodeRequest_setIntervalMining (p : Option Json) :
    decodeRequest ⟨"evm_setIntervalMining", p⟩ =
      (sequenceDecode decodeU64 p).map .SetIntervalMining := rfl

/-- Dispatch arm of `forge_dropTransaction`. -/
theorem decodeRequest_dropTransaction (p : Option Json) :
    decodeRequest ⟨"forge_dropTransaction", p⟩ =
      (sequenceDecode decodeH256 p).map .DropTransaction := rfl

/-- Dispatch arm of `forge_reset`. -/
theorem decodeRequest_reset (p : Option Json) :
    decodeRequest ⟨"forge_reset", p⟩ =
      (sequenceDecode decodeForking p).map .Reset := rfl

/-- Dispatch arm of `forge_setBalance`. -/
theorem decodeRequest_setBalance (p : Option Json) :
    decodeRequest ⟨"forge_setBalance", p⟩ = (do
      let xs ← seqContent p
      let (a, xs) ← reqField decodeAddress xs
      let (v, xs) ← reqField deserialize_number xs
      let _ ← endSeq xs
      pure (.SetBalance a v)) := rfl

/-- Dispatch arm of `forge_setCode`. -/
theorem decodeRequest_setCode (p : Option Json) :
    decodeRequest ⟨"forge_setCode", p⟩ = (do
      let xs ← seqContent p
      let (a, xs) ← reqField decodeAddress xs
      let (c, xs) ← reqField decodeBytes xs
      let _ ← endSeq xs
      pure (.SetCode a c)) := rfl

/-- Dispatch arm of `forge_setNonce`. -/
theorem decodeRequest_setNonce (p : Option Json) :
    decodeRequest ⟨"forge_setNonce", p⟩ = (do
      let xs ← seqContent p
      let (a, xs) ← reqField decodeAddress xs
      let (v, xs) ← reqField deserialize_number xs
      let _ ← endSeq xs
      pure (.SetNonce a v)) := rfl

/-- Dispatch arm of `forge_setStorageAt`. -/
theorem decodeRequest_setStorageAt (p : Option Json) :
    decodeRequest ⟨"forge_setStorageAt", p⟩ = (do
      let xs ← seqContent p
      let (a, xs) ← reqField decodeAddress xs
      let (k, xs) ← reqField decodeU256 xs
      let (v, xs) ← reqField decodeU256 xs
      let _ ← endSeq xs
      pure (.SetStorageAt a k v)) := rfl

/-- Dispatch arm of `forge_setCoinbase`. -/
theorem decodeRequest_setCoinbase (p : Option Json) :
    decodeRequest ⟨"forge_setCoinbase", p⟩ =
      (sequenceDecode decodeAddress p).map .SetCoinbase := rfl

/-- Dispatch arm of `forge_setLoggingEnabled`. -/
theorem decodeRequest_setLogging (p : Option Json) :
    decodeRequest ⟨"forge_setLoggingEnabled", p⟩ =
      (sequenceDecode decodeBool p).map .SetLogging := rfl

/-- Dispatch arm of `forge_setMinGasPrice`. -/
theorem decodeRequest_setMinGasPrice (p : Option Json) :
    decodeRequest ⟨"forge_setMinGasPrice", p⟩ =
      (sequenceDecode decodeU256 p).map .SetMinGasPrice := rfl

/-- Dispatch arm of `forge_setNextBlockBaseFeePerGas`. -/
theorem decodeRequest_setNextBlockBaseFee (p : Option Json) :
    decodeRequest ⟨"forge_setNextBlockBaseFeePerGas", p⟩ =
      (sequenceDecode decodeU256 p).map .SetNextBlockBaseFeePerGas := rfl

/-- Dispatch arm of `evm_snapshot`. -/
theorem decodeRequest_snapshot (p : Option Json) :
    decodeRequest ⟨"evm_snapshot", p⟩ = unitContent .EvmSnapshot p := rfl

/-- Dispatch arm of `evm_revert`. -/
theorem decodeRequest_revert (p : Option Json) :
    decodeRequest ⟨"evm_revert", p⟩ =
      (sequenceDecode decodeU256 p).map .EvmRevert := rfl

/-- Dispatch arm of `evm_increaseTime`. -/
theorem decodeRequest_increaseTime (p : Option Json) :
    decodeRequest ⟨"evm_increaseTime", p⟩ =
      (sequenceDecode decodeU256 p).map .EvmIncreaseTime := rfl

/-- Dispatch arm of `evm_setNextBlockTimestamp`. -/
theorem decodeRequest_setNextBlockTimestamp (p : Option Json) :
    decodeRequest ⟨"evm_setNextBlockTimestamp", p⟩ =
      (sequenceDecode decodeU64 p).map .EvmSetNextBlockTimeStamp := rfl

/-- Dispatch arm of `evm_mine`. -/
theorem decodeRequest_evmMine (p : Option Json) :
    decodeRequest ⟨"evm_mine", p⟩ =
      (sequenceDecode decodeEvmMineOptions p).map .EvmMine := rfl

/-! ## Helper lemmas -/

/-- `Except.map` does not change success. -/
theorem isOk_map {ε α β : Type} (f : α → β) (e : Except ε α) :
    (e.map f).isOk = e.isOk := by
  cases e <;> rfl

/-- A successful `decodeVec` preserves the length. -/
theorem length_decodeVec {α : Type} (dec : Json → Except DecodeError α) :
    ∀ (xs : List Json) (ys : List α), decodeVec dec xs = .ok ys →
      ys.length = xs.length := by
  intro xs
  induction xs with
  | nil =>
    intro ys h
    simp only [decodeVec, Except.ok.injEq] at h
    simp [← h]
  | cons x xs ih =>
    intro ys h
    simp only [decodeVec, Bind.bind, Except.bind] at h
    cases hx : dec x with
    | error e => rw [hx] at h; exact absurd h (by simp)
    | ok b =>
      rw [hx] at h
      cases hxs : decodeVec dec xs with
      | error e => rw [hxs] at h; exact absurd h (by simp)
      | ok bs =>
        rw [hxs] at h
        simp only [pure, Except.pure, Except.ok.injEq] at h
        simp [← h, ih bs hxs]

/-- `sequence::deserialize` fails whenever the params array does not have
exactly one element, whatever the element deserializer is. -/
theorem sequenceDecode_isOk_false {α : Type} (dec : Json → Except DecodeError α)
    (xs : List Json) (h : xs.length ≠ 1) :
    (sequenceDecode dec (some (.arr xs))).isOk = false := by
  unfold sequenceDecode
  simp only [seqContent, Bind.bind, Except.bind]
  cases hm : decodeVec dec xs with
  | error e => rfl
  | ok vs =>
    have hlen : vs.length = xs.length := length_decodeVec dec xs vs hm
    match vs, hlen with
    | [], _ => rfl
    | [v], hlen => exact absurd hlen.symm (by simpa using h)
    | v :: w :: vs, _ => rfl

/-- The `0x` prefix strips off the canonical hex string. -/
theorem hexPayload_hexString (n : Nat) :
    hexPayload (hexString n) = some (hexDigitsOf n) := rfl

/-- Parsing one canonical hex digit gives back its value. -/
theorem hexVal_hexDigitChar {d : Nat} (hd : d < 16) :
    hexVal (hexDigitChar d) = some d := by
  have h : ∀ i : Fin 16, hexVal (hexDigitChar i.val) = some i.val := by decide
  exact h ⟨d, hd⟩

/-- Mapping values to digit characters and back is the identity. -/
theorem hexValList_map (L : List Nat) (h : ∀ d ∈ L, d < 16) :
    hexValList (L.map hexDigitChar) = some L := by
  induction L with
  | nil => rfl
  | cons d L ih =>
    have hd : d < 16 := h d (List.mem_cons_self d L)
    have hL : ∀ x ∈ L, x < 16 := fun x hx => h x (List.mem_cons_of_mem d hx)
    simp only [List.map_cons, hexValList, hexVal_hexDigitChar hd, ih hL]
    rfl

/-- Folding big-endian digits is `Nat.ofDigits` of the little-endian
list. -/
theorem foldl_reverse_ofDigits (L : List Nat) :
    L.reverse.foldl (fun a d => a * 16 + d) 0 = Nat.ofDigits 16 L := by
  induction L with
  | nil => simp [Nat.ofDigits]
  | cons d L ih =>
    rw [List.reverse_cons, List.foldl_append, ih, Nat.ofDigits_cons]
    simp only [List.foldl_cons, List.foldl_nil, Nat.cast_id]
    ring

/-- Round trip: parsing the canonical hex digits of `n` yields `n`. -/
theorem parseHexDigits_hexDigitsOf (n : Nat) :
    parseHexDigits (hexDigitsOf n) = some n := by
  by_cases h0 : n = 0
  · subst h0; rfl
  · unfold hexDigitsOf
    rw [if_neg h0]
    unfold parseHexDigits
    have hdig : ∀ d ∈ (Nat.digits 16 n).reverse, d < 16 := by
      intro d hd
      exact Nat.digits_lt_base (by norm_num) (List.mem_reverse.mp hd)
    rw [hexValList_map _ hdig]
    show some (((Nat.digits 16 n).reverse).foldl (fun a d => a * 16 + d) 0) = some n
    rw [foldl_reverse_ofDigits, Nat.ofDigits_digits]

/-- The canonical hex digits are never empty. -/
theorem hexDigitsOf_ne_nil (n : Nat) : hexDigitsOf n ≠ [] := by
  unfold hexDigitsOf
  by_cases h0 : n = 0
  · simp [h0]
  · rw [if_neg h0]
    intro h
    have : Nat.digits 16 n ≠ [] := Nat.digits_ne_nil_iff_ne_zero.mpr h0
    simp at h
    exact this h

/-- For `n < 2^256` the canonical hex digits fit in 64 characters. -/
theorem hexDigitsOf_length_le (n : Nat) (h : n < 2 ^ 256) :
    (hexDigitsOf n).length ≤ 64 := by
  unfold hexDigitsOf
  by_cases h0 : n = 0
  · simp [h0]
  · rw [if_neg h0]
    rw [List.length_map, List.length_reverse]
    by_contra hlen
    push_neg at hlen
    have hle : 16 ^ (Nat.digits 16 n).length ≤ 16 * n :=
      Nat.base_pow_length_digits_le 16 n (by norm_num) h0
    have h65 : (16 : Nat) ^ 65 ≤ 16 ^ (Nat.digits 16 n).length :=
      Nat.pow_le_pow_right (by norm_num) hlen
    have : (16 : Nat) ^ 65 ≤ 16 * n := le_trans h65 hle
    have h64 : (16 : Nat) ^ 64 ≤ n := by
      have := Nat.le_of_mul_le_mul_left (by calc
        16 * 16 ^ 64 = 16 ^ 65 := by ring
        _ ≤ 16 * n := this) (by norm_num : 0 < 16)
      exact this
    have : (16 : Nat) ^ 64 = 2 ^ 256 := by norm_num
    omega

/-- Decoding the canonical hex string of `n < 2^256` as a `U256` yields
`n`. -/
theorem decodeU256_hexString (n : Nat) (h : n < 2 ^ 256) :
    decodeU256 (.str (hexString n)) = .ok n := by
  have hne : ¬((hexDigitsOf n).length = 0 ∨ 64 < (hexDigitsOf n).length) := by
    push_neg
    refine ⟨fun hl => hexDigitsOf_ne_nil n (List.length_eq_zero.mp hl), ?_⟩
    exact hexDigitsOf_length_le n h
  simp only [decodeU256, hexPayload_hexString, if_neg hne,
    parseHexDigits_hexDigitsOf n]

/-- `decodeU64` accepts a native numeric literal in range. -/
theorem decodeU64_num (n : Nat) (h : n < 2 ^ 64) :
    decodeU64 (.num n) = .ok n := by
  simp only [decodeU64, if_pos h]

/-- `deserialize_number` accepts a native numeric literal in `u64`
range. -/
theorem deserialize_number_num (n : Nat) (h : n < 2 ^ 64) :
    deserialize_number (.num n) = .ok n := by
  simp only [deserialize_number, decodeU256, decodeU64, if_pos h]

/-- `deserialize_number` accepts the canonical hex string of any
`n < 2^256`. -/
theorem deserialize_number_hexString (n : Nat) (h : n < 2 ^ 256) :
    deserialize_number (.str (hexString n)) = .ok n := by
  simp only [deserialize_number, decodeU256_hexString n h]

/-- Characterisation of a completed `selectLoopAux` run: completion happens
at the first round at or after `k` where either future is ready, the
result is that future's (with the transport checked first within a round),
and both futures were pending at every earlier polled round. -/
theorem selectLoopAux_spec {R : Type} (serve node : Nat → Option R) :
    ∀ (fuel k : Nat) (b : Bool) (r : R) (t : Nat),
      selectLoopAux serve node k fuel = .completed b r t →
      k < t ∧ t ≤ k + fuel ∧
      (b = true → serve (t - 1) = some r) ∧
      (b = false → serve (t - 1) = none ∧ node (t - 1) = some r) ∧
      (∀ m, k ≤ m → m < t - 1 → serve m = none ∧ node m = none) := by
  intro fuel
  induction fuel with
  | zero => intro k b r t h; exact absurd h (by simp [selectLoopAux])
  | succ fuel ih =>
    intro k b r t h
    simp only [selectLoopAux] at h
    cases hs : serve k with
    | some v =>
      rw [hs] at h
      injection h with hb hr ht
      subst hb; subst hr; subst ht
      refine ⟨Nat.lt_succ_self k, by omega, fun _ => by simpa using hs,
        fun hb => by simp at hb, ?_⟩
      intro m hm1 hm2
      omega
    | none =>
      rw [hs] at h
      cases hn : node k with
      | some v =>
        rw [hn] at h
        injection h with hb hr ht
        subst hb; subst hr; subst ht
        refine ⟨Nat.lt_succ_self k, by omega, fun hb => by simp at hb,
          fun _ => ⟨by simpa using hs, by simpa using hn⟩, ?_⟩
        intro m hm1 hm2
        omega
      | none =>
        rw [hn] at h
        obtain ⟨h1, h2, h3, h4, h5⟩ := ih (k + 1) b r t h
        refine ⟨by omega, by omega, h3, h4, ?_⟩
        intro m hm1 hm2
        rcases Nat.eq_or_lt_of_le hm1 with heq | hlt
        · exact heq ▸ ⟨hs, hn⟩
        · exact h5 m hlt hm2

/-- A completed `selectLoopAux` run depends on the futures only at the
rounds it actually polled (those before completion): any futures agreeing
there produce the identical outcome. -/
theorem selectLoopAux_congr {R : Type} (serve node serve' node' : Nat → Option R) :
    ∀ (fuel k : Nat) (b : Bool) (r : R) (t : Nat),
      selectLoopAux serve node k fuel = .completed b r t →
      (∀ m, k ≤ m → m < t → serve' m = serve m ∧ node' m = node m) →
      selectLoopAux serve' node' k fuel = .completed b r t := by
  intro fuel
  induction fuel with
  | zero => intro k b r t h; exact absurd h (by simp [selectLoopAux])
  | succ fuel ih =>
    intro k b r t h hagree
    have hkt : k < t := (selectLoopAux_spec serve node (fuel + 1) k b r t h).1
    obtain ⟨hs', hn'⟩ := hagree k (le_refl k) hkt
    simp only [selectLoopAux] at h ⊢
    rw [hs', hn']
    cases hs : serve k with
    | some v => rw [hs] at h; exact h
    | none =>
      rw [hs] at h
      cases hn : node k with
      | some v => rw [hn] at h; exact h
      | none =>
        rw [hn] at h
        exact ih (k + 1) b r t h fun m hm1 hm2 => hagree m (by omega) hm2

/-! ## Ledger helper lemmas -/

/-- A hit in the front part of an appended snapshot list persists. -/
theorem findSnap_append_of_some {xs ys : List (Nat × ChainState)} {sid : Nat}
    {s : ChainState} (h : findSnap xs sid = some s) :
    findSnap (xs ++ ys) sid = some s := by
  induction xs with
  | nil => simp [findSnap] at h
  | cons p xs ih =>
    obtain ⟨i, st⟩ := p
    simp only [findSnap, List.cons_append] at h ⊢
    by_cases hi : i = sid
    · rw [if_pos hi] at h ⊢; exact h
    · rw [if_neg hi] at h ⊢; exact ih h

/-- A snapshot id absent from a list is not found there. -/
theorem findSnap_none_of_forall {xs : List (Nat × ChainState)} {sid : Nat}
    (h : ∀ p ∈ xs, p.1 ≠ sid) : findSnap xs sid = none := by
  induction xs with
  | nil => rfl
  | cons p xs ih =>
    obtain ⟨i, st⟩ := p
    simp only [findSnap]
    rw [if_neg (h (i, st) (List.mem_cons_self _ _))]
    exact ih fun q hq => h q (List.mem_cons_of_mem _ hq)

/-- A miss in the front part of an appended snapshot list defers to the
back part. -/
theorem findSnap_append_of_none {xs ys : List (Nat × ChainState)} {sid : Nat}
    (h : findSnap xs sid = none) :
    findSnap (xs ++ ys) sid = findSnap ys sid := by
  induction xs with
  | nil => rfl
  | cons p xs ih =>
    obtain ⟨i, st⟩ := p
    simp only [findSnap, List.cons_append] at h ⊢
    by_cases hi : i = sid
    · rw [if_pos hi] at h; exact absurd h (by simp)
    · rw [if_neg hi] at h ⊢; exact ih h

/-- Invariants carried through an arbitrary mutation sequence after a
snapshot: the saved state stays findable under its id, the well-formedness
bound on snapshot keys is preserved, the id counter never decreases, and
the ids issued along the way are at least the starting counter and
strictly increasing. -/
theorem applyOps_invariants (ops : List LedgerOp) :
    ∀ (l : Ledger) (sid : Nat) (s : ChainState),
      findSnap l.snapshots sid = some s →
      (∀ p ∈ l.snapshots, p.1 < l.nextSnapshotId) →
      sid < l.nextSnapshotId →
      findSnap (applyOps ops l).snapshots sid = some s ∧
      (∀ p ∈ (applyOps ops l).snapshots, p.1 < (applyOps ops l).nextSnapshotId) ∧
      sid < (applyOps ops l).nextSnapshotId ∧
      l.nextSnapshotId ≤ (applyOps ops l).nextSnapshotId ∧
      (∀ i ∈ issuedIds ops l, l.nextSnapshotId ≤ i) ∧
      List.Chain' (· < ·) (issuedIds ops l) := by
  induction ops with
  | nil =>
    intro l sid s hfind hwf hlt
    exact ⟨hfind, hwf, hlt, le_refl _, by simp [issuedIds], by simp [issuedIds]⟩
  | cons op ops ih =>
    intro l sid s hfind hwf hlt
    cases op with
    | mutate f =>
      have h := ih { l with state := f l.state } sid s hfind hwf hlt
      exact ⟨h.1, h.2.1, h.2.2.1, h.2.2.2.1, h.2.2.2.2.1, h.2.2.2.2.2⟩
    | snap =>
      set l' : Ledger :=
        { l with
          snapshots := l.snapshots ++ [(l.nextSnapshotId, l.state)],
          nextSnapshotId := l.nextSnapshotId + 1 } with hl'
      have hfind' : findSnap l'.snapshots sid = some s :=
        findSnap_append_of_some hfind
      have hwf' : ∀ p ∈ l'.snapshots, p.1 < l'.nextSnapshotId := by
        intro p hp
        simp only [hl', List.mem_append, List.mem_singleton] at hp
        rcases hp with hp | hp
        · exact lt_trans (hwf p hp) (Nat.lt_succ_self _)
        · subst hp; exact Nat.lt_succ_self _
      have hlt' : sid < l'.nextSnapshotId := lt_trans hlt (Nat.lt_succ_self _)
      have h := ih l' sid s hfind' hwf' hlt'
      have happly : applyOps (LedgerOp.snap :: ops) l = applyOps ops l' := rfl
      have hissued : issuedIds (LedgerOp.snap :: ops) l =
          l.nextSnapshotId :: issuedIds ops l' := rfl
      rw [happly, hissued]
      refine ⟨h.1, h.2.1, h.2.2.1, ?_, ?_, ?_⟩
      · exact le_trans (Nat.le_succ _) h.2.2.2.1
      · intro i hi
        rcases List.mem_cons.mp hi with hi | hi
        · omega
        · have := h.2.2.2.2.1 i hi
          simp only [hl'] at this
          omega
      · rw [List.chain'_cons']
        constructor
        · intro b hb
          have hbmem : b ∈ issuedIds ops l' := List.mem_of_mem_head? hb
          have := h.2.2.2.2.1 b hbmem
          simp only [hl'] at this
          omega
        · exact h.2.2.2.2.2

/-! ## Claim theorems -/

/-- **C3.** Whenever either the request-serving transport future or the
node-service future completes (at round `t - 1`, the first round at which
either is ready), the task returned by `spawn` completes with that unit's
result (`b` records which unit: `true` for the transport, which
`tokio::select!` checks within the round), both units were still pending
at every earlier round, and the outcome does not depend on either future
at any round `≥ t` — the loser is dropped at completion and never polled
again, and neither unit keeps running once the other has terminated. -/
theorem spawn_select_supervision {R : Type} (serve node : Nat → Option R)
    (fuel : Nat) (b : Bool) (r : R) (t : Nat)
    (h : selectLoop serve node fuel = .completed b r t) :
    0 < t ∧
    (b = true → serve (t - 1) = some r) ∧
    (b = false → serve (t - 1) = none ∧ node (t - 1) = some r) ∧
    (∀ m, m < t - 1 → serve m = none ∧ node m = none) ∧
    (∀ serve' node' : Nat → Option R,
      (∀ m, m < t → serve' m = serve m ∧ node' m = node m) →
      selectLoop serve' node' fuel = .completed b r t) := by
  obtain ⟨h1, _, h3, h4, h5⟩ := selectLoopAux_spec serve node fuel 0 b r t h
  refine ⟨h1, h3, h4, fun m hm => h5 m (Nat.zero_le m) hm, ?_⟩
  intro serve' node' hagree
  exact selectLoopAux_congr serve node serve' node' fuel 0 b r t h
    fun m _ hm => hagree m hm

/-- A transport future completing at round 1 (for the witness). -/
def serveW : Nat → Option Nat := fun k => if k = 1 then some 7 else none

/-- A node-service future completing at round 0 (for the witness). -/
def nodeW : Nat → Option Nat := fun k => if k = 0 then some 9 else none

/-- Witness for **C3** at a concrete pair of futures: the node service
completes first (round 0), the task returns its result, and the outcome is
insensitive to the futures beyond the completion round. -/
theorem spawn_select_supervision_witness :
    0 < 1 ∧
    (false = true → serveW 0 = some 9) ∧
    (false = false → serveW 0 = none ∧ nodeW 0 = some 9) ∧
    (∀ m, m < 0 → serveW m = none ∧ nodeW m = none) ∧
    (∀ serve' node' : Nat → Option Nat,
      (∀ m, m < 1 → serve' m = serveW m ∧ node' m = nodeW m) →
      selectLoop serve' node' 5 = .completed false 9 1) :=
  spawn_select_supervision serveW nodeW 5 false 9 1 rfl

/-- **C4.** `spawn` configures exactly one mining mode from the config: a
configured automine interval yields `Interval(duration)` and leaves the
pool's listener set untouched; no interval yields `Instant` bounded by
`max_transactions` and subscribed to the freshly registered ready-listener
of the pool. -/
theorem spawn_mining_mode_config (config : NodeConfig) (pool : Pool) :
    (∀ d, config.automine = some d →
      spawnMiningMode config pool = (.interval d, pool)) ∧
    (config.automine = none →
      spawnMiningMode config pool =
        (.instant config.max_transactions pool.nextListenerId,
         { readyListeners := pool.readyListeners ++ [pool.nextListenerId],
           nextListenerId := pool.nextListenerId + 1 })) := by
  constructor
  · intro d hd
    simp [spawnMiningMode, hd]
  · intro h
    simp [spawnMiningMode, h, Pool.add_ready_listener]

/-- A config with a fixed automine interval (for the witness). -/
def configIntervalW : NodeConfig :=
  { chain_id := 1, gas_limit := 30000000, port := 8545,
    automine := some 5, max_transactions := 1000 }

/-- A config without an automine interval (for the witness). -/
def configInstantW : NodeConfig :=
  { chain_id := 1, gas_limit := 30000000, port := 8545,
    automine := none, max_transactions := 1000 }

/-- An empty pool (for witnesses). -/
def poolW : Pool := { readyListeners := [], nextListenerId := 0 }

/-- Witness for **C4** at two concrete configs, one per branch. -/
theorem spawn_mining_mode_config_witness :
    spawnMiningMode configIntervalW poolW = (.interval 5, poolW) ∧
    spawnMiningMode configInstantW poolW =
      (.instant 1000 0, { readyListeners := [0], nextListenerId := 1 }) :=
  ⟨(spawn_mining_mode_config configIntervalW poolW).1 5 rfl,
   (spawn_mining_mode_config configInstantW poolW).2 rfl⟩

/-- **C10.** `spawn` binds the request-serving transport to the IPv4
loopback address `127.0.0.1` at the configured port, for every config: the
listen address is fixed and no configuration value reaches it. -/
theorem spawn_socket_loopback (config : NodeConfig) :
    spawnSocket config = { ip := .v4 127 0 0 1, port := config.port } ∧
    (spawnSocket config).ip.isLoopback = true :=
  ⟨rfl, rfl⟩

/-- **C5** (modelled from the spec). Taking a snapshot, performing
arbitrary mutations (applied blocks, administrative overrides, and further
snapshots), then reverting to the snapshot id restores the chain state —
all balances, nonces, code, storage, and the block count — exactly to its
value at the snapshot; after that revert, reverting to any id issued after
the reverted-to snapshot fails with `UnknownSnapshot`; and the ids issued
afterwards are all strictly greater than the reverted-to id and strictly
increasing (ids are never reused). -/
theorem snapshot_revert_restores (l0 : Ledger) (ops : List LedgerOp)
    (hwf : ∀ p ∈ l0.snapshots, p.1 < l0.nextSnapshotId) :
    ∃ l3,
      Ledger.revert (Ledger.snapshot l0).1 (applyOps ops (Ledger.snapshot l0).2) =
        .ok l3 ∧
      l3.state = l0.state ∧
      (∀ sid', (Ledger.snapshot l0).1 < sid' →
        Ledger.revert sid' l3 = .error .UnknownSnapshot) ∧
      (∀ i ∈ issuedIds ops (Ledger.snapshot l0).2, (Ledger.snapshot l0).1 < i) ∧
      List.Chain' (· < ·) (issuedIds ops (Ledger.snapshot l0).2) := by
  have hfind1 :
      findSnap (Ledger.snapshot l0).2.snapshots l0.nextSnapshotId = some l0.state := by
    show findSnap (l0.snapshots ++ [(l0.nextSnapshotId, l0.state)]) l0.nextSnapshotId =
      some l0.state
    rw [findSnap_append_of_none
      (findSnap_none_of_forall fun p hp => Nat.ne_of_lt (hwf p hp))]
    simp [findSnap]
  have hwf1 : ∀ p ∈ (Ledger.snapshot l0).2.snapshots,
      p.1 < (Ledger.snapshot l0).2.nextSnapshotId := by
    intro p hp
    simp only [Ledger.snapshot, List.mem_append, List.mem_singleton] at hp
    show p.1 < l0.nextSnapshotId + 1
    rcases hp with hp | hp
    · exact lt_trans (hwf p hp) (Nat.lt_succ_self _)
    · subst hp; exact Nat.lt_succ_self _
  obtain ⟨hf2, hwf2, hlt2, hmono2, hiss2, hchain2⟩ :=
    applyOps_invariants ops (Ledger.snapshot l0).2 l0.nextSnapshotId l0.state
      hfind1 hwf1 (Nat.lt_succ_self _)
  simp only [show (Ledger.snapshot l0).1 = l0.nextSnapshotId from rfl]
  refine ⟨{ applyOps ops (Ledger.snapshot l0).2 with
            state := l0.state,
            snapshots := (applyOps ops (Ledger.snapshot l0).2).snapshots.filter
              (fun p => p.1 ≤ l0.nextSnapshotId) },
          ?_, rfl, ?_, ?_, hchain2⟩
  · unfold Ledger.revert
    rw [hf2]
  · intro sid' hsid'
    have hnone :
        findSnap ((applyOps ops (Ledger.snapshot l0).2).snapshots.filter
          (fun p => p.1 ≤ l0.nextSnapshotId)) sid' = none := by
      apply findSnap_none_of_forall
      intro p hp
      have hple : p.1 ≤ l0.nextSnapshotId :=
        of_decide_eq_true (List.mem_filter.mp hp).2
      omega
    unfold Ledger.revert
    rw [hnone]
  · intro i hi
    have := hiss2 i hi
    have hnext : (Ledger.snapshot l0).2.nextSnapshotId = l0.nextSnapshotId + 1 := rfl
    omega

/-- A ledger with no snapshots yet (for the witness). -/
def ledgerW : Ledger :=
  { state :=
      { balances := fun _ => 0, nonces := fun _ => 0, code := fun _ => none,
        storage := fun _ _ => 0, blockCount := 0 },
    snapshots := [], nextSnapshotId := 0 }

/-- A mutation sequence: apply a block, then take a later snapshot (for
the witness). -/
def opsW : List LedgerOp :=
  [.mutate (fun st => { st with blockCount := st.blockCount + 1 }), .snap]

/-- Witness for **C5** at a concrete ledger and mutation sequence. -/
theorem snapshot_revert_restores_witness :
    ∃ l3,
      Ledger.revert (Ledger.snapshot ledgerW).1 (applyOps opsW (Ledger.snapshot ledgerW).2) =
        .ok l3 ∧
      l3.state = ledgerW.state ∧
      (∀ sid', (Ledger.snapshot ledgerW).1 < sid' →
        Ledger.revert sid' l3 = .error .UnknownSnapshot) ∧
      (∀ i ∈ issuedIds opsW (Ledger.snapshot ledgerW).2, (Ledger.snapshot ledgerW).1 < i) ∧
      List.Chain' (· < ·) (issuedIds opsW (Ledger.snapshot ledgerW).2) :=
  snapshot_revert_restores ledgerW opsW (by simp [ledgerW])

/-- **C1 counterexample.** The claim includes `evm_setIntervalMining` among
the numeric parameters accepting both encodings, but its parameter is a
plain `u64` behind the `sequence` codec: the native literal `100` decodes
while its hex-string form `"0x64"` is rejected, so the two encodings do
not both succeed. -/
theorem setIntervalMining_hex_rejected :
    decodeRequest ⟨"evm_setIntervalMining", some (.arr [.num 100])⟩ =
      .ok (.SetIntervalMining 100) ∧
    (decodeRequest ⟨"evm_setIntervalMining", some (.arr [.str "0x64"])⟩).isOk =
      false :=
  ⟨rfl, rfl⟩

/-- **C2 counterexample.** For `eth_getBalance` the trailing block-tag
parameter is not omittable: a one-element params array is rejected
(`invalid_length`), while the two-element form decodes and `eth_call` does
accept the one-element form. -/
theorem getBalance_omitted_tag_rejected :
    (decodeRequest ⟨"eth_getBalance",
      some (.arr [.str "0xd84de507f3fada7df80908082d3239466db55a71"])⟩).isOk =
      false ∧
    (decodeRequest ⟨"eth_getBalance",
      some (.arr [.str "0xd84de507f3fada7df80908082d3239466db55a71",
        .str "latest"])⟩).isOk = true ∧
    (decodeRequest ⟨"eth_call", some (.arr [.obj []])⟩).isOk = true :=
  ⟨rfl, rfl, rfl⟩

/-- **C6 counterexample.** The claim says the stop-impersonating operation
carries an address, but `StopImpersonatingAccount` is a unit variant: it
decodes with no payload, and a params array carrying an address is
rejected. -/
theorem stopImpersonating_takes_no_address :
    decodeRequest ⟨"forge_stopImpersonatingAccount", none⟩ =
      .ok .StopImpersonatingAccount ∧
    (decodeRequest ⟨"forge_stopImpersonatingAccount",
      some (.arr [.str "0xd84de507f3fada7df80908082d3239466db55a71"])⟩).isOk =
      false :=
  ⟨rfl, rfl⟩

/-- **C9.** For every params payload, each developer extension declared
with both a `forge_`-prefixed name and a `hardhat_`-prefixed alias decodes
identically under the two names: same typed operation on success, and one
fails exactly when the other does. -/
theorem forge_hardhat_aliases_equivalent (p : Option Json) :
    decodeRequest ⟨"forge_impersonateAccount", p⟩ =
      decodeRequest ⟨"hardhat_impersonateAccount", p⟩ ∧
    decodeRequest ⟨"forge_stopImpersonatingAccount", p⟩ =
      decodeRequest ⟨"hardhat_stopImpersonatingAccount", p⟩ ∧
    decodeRequest ⟨"forge_getAutomine", p⟩ =
      decodeRequest ⟨"hardhat_getAutomine", p⟩ ∧
    decodeRequest ⟨"forge_mine", p⟩ = decodeRequest ⟨"hardhat_mine", p⟩ ∧
    decodeRequest ⟨"forge_dropTransaction", p⟩ =
      decodeRequest ⟨"hardhat_dropTransaction", p⟩ ∧
    decodeRequest ⟨"forge_reset", p⟩ = decodeRequest ⟨"hardhat_reset", p⟩ ∧
    decodeRequest ⟨"forge_setBalance", p⟩ =
      decodeRequest ⟨"hardhat_setBalance", p⟩ ∧
    decodeRequest ⟨"forge_setCode", p⟩ = decodeRequest ⟨"hardhat_setCode", p⟩ ∧
    decodeRequest ⟨"forge_setNonce", p⟩ =
      decodeRequest ⟨"hardhat_setNonce", p⟩ ∧
    decodeRequest ⟨"forge_setStorageAt", p⟩ =
      decodeRequest ⟨"hardhat_setStorageAt", p⟩ ∧
    decodeRequest ⟨"forge_setCoinbase", p⟩ =
      decodeRequest ⟨"hardhat_setCoinbase", p⟩ ∧
    decodeRequest ⟨"forge_setLoggingEnabled", p⟩ =
      decodeRequest ⟨"hardhat_setLoggingEnabled", p⟩ ∧
    decodeRequest ⟨"forge_setMinGasPrice", p⟩ =
      decodeRequest ⟨"hardhat_setMinGasPrice", p⟩ ∧
    decodeRequest ⟨"forge_setNextBlockBaseFeePerGas", p⟩ =
      decodeRequest ⟨"hardhat_setNextBlockBaseFeePerGas", p⟩ :=
  ⟨rfl, rfl, rfl, rfl, rfl, rfl, rfl, rfl, rfl, rfl, rfl, rfl, rfl, rfl⟩

/-- **C8.** Every method declared with the single-parameter `sequence`
codec decodes only from a params array of exactly one element: any array
of length 0 or of length ≥ 2 is rejected with a decode error and never
produces a typed operation.  The conjunction covers all eighteen
`with = "sequence"` variants. -/
theorem sequence_codec_requires_one_param (xs : List Json)
    (hxs : xs.length ≠ 1) :
    (decodeRequest ⟨"eth_sendTransaction", some (.arr xs)⟩).isOk = false ∧
    (decodeRequest ⟨"eth_sendRawTransaction", some (.arr xs)⟩).isOk = false ∧
    (decodeRequest ⟨"eth_getTransactionByHash", some (.arr xs)⟩).isOk = false ∧
    (decodeRequest ⟨"eth_getTransactionReceipt", some (.arr xs)⟩).isOk = false ∧
    (decodeRequest ⟨"debug_traceTransaction", some (.arr xs)⟩).isOk = false ∧
    (decodeRequest ⟨"forge_impersonateAccount", some (.arr xs)⟩).isOk = false ∧
    (decodeRequest ⟨"forge_dropTransaction", some (.arr xs)⟩).isOk = false ∧
    (decodeRequest ⟨"forge_reset", some (.arr xs)⟩).isOk = false ∧
    (decodeRequest ⟨"evm_setAutomine", some (.arr xs)⟩).isOk = false ∧
    (decodeRequest ⟨"evm_setIntervalMining", some (.arr xs)⟩).isOk = false ∧
    (decodeRequest ⟨"forge_setCoinbase", some (.arr xs)⟩).isOk = false ∧
    (decodeRequest ⟨"forge_setLoggingEnabled", some (.arr xs)⟩).isOk = false ∧
    (decodeRequest ⟨"forge_setMinGasPrice", some (.arr xs)⟩).isOk = false ∧
    (decodeRequest ⟨"forge_setNextBlockBaseFeePerGas", some (.arr xs)⟩).isOk =
      false ∧
    (decodeRequest ⟨"evm_revert", some (.arr xs)⟩).isOk = false ∧
    (decodeRequest ⟨"evm_increaseTime", some (.arr xs)⟩).isOk = false ∧
    (decodeRequest ⟨"evm_setNextBlockTimestamp", some (.arr xs)⟩).isOk = false ∧
    (decodeRequest ⟨"evm_mine", some (.arr xs)⟩).isOk = false := by
  refine ⟨?_, ?_, ?_, ?_, ?_, ?_, ?_, ?_, ?_, ?_, ?_, ?_, ?_, ?_, ?_, ?_, ?_, ?_⟩
  · rw [show decodeRequest ⟨"eth_sendTransaction", some (.arr xs)⟩ =
      (sequenceDecode decodeTransactionRequest (some (.arr xs))).map
        .EthSendTransaction from rfl, isOk_map]
    exact sequenceDecode_isOk_false _ xs hxs
  · rw [show decodeRequest ⟨"eth_sendRawTransaction", some (.arr xs)⟩ =
      (sequenceDecode decodeBytes (some (.arr xs))).map
        .EthSendRawTransaction from rfl, isOk_map]
    exact sequenceDecode_isOk_false _ xs hxs
  · rw [show decodeRequest ⟨"eth_getTransactionByHash", some (.arr xs)⟩ =
      (sequenceDecode decodeH256 (some (.arr xs))).map
        .EthGetTransactionByHash from rfl, isOk_map]
    exact sequenceDecode_isOk_false _ xs hxs
  · rw [show decodeRequest ⟨"eth_getTransactionReceipt", some (.arr xs)⟩ =
      (sequenceDecode decodeH256 (some (.arr xs))).map
        .EthGetTransactionReceipt from rfl, isOk_map]
    exact sequenceDecode_isOk_false _ xs hxs
  · rw [show decodeRequest ⟨"debug_traceTransaction", some (.arr xs)⟩ =
      (sequenceDecode decodeH256 (some (.arr xs))).map
        .DebugTraceTransaction from rfl, isOk_map]
    exact sequenceDecode_isOk_false _ xs hxs
  · rw [show decodeRequest ⟨"forge_impersonateAccount", some (.arr xs)⟩ =
      (sequenceDecode decodeAddress (some (.arr xs))).map
        .ImpersonateAccount from rfl, isOk_map]
    exact sequenceDecode_isOk_false _ xs hxs
  · rw [show decodeRequest ⟨"forge_dropTransaction", some (.arr xs)⟩ =
      (sequenceDecode decodeH256 (some (.arr xs))).map
        .DropTransaction from rfl, isOk_map]
    exact sequenceDecode_isOk_false _ xs hxs
  · rw [show decodeRequest ⟨"forge_reset", some (.arr xs)⟩ =
      (sequenceDecode decodeForking (some (.arr xs))).map .Reset from rfl,
      isOk_map]
    exact sequenceDecode_isOk_false _ xs hxs
  · rw [show decodeRequest ⟨"evm_setAutomine", some (.arr xs)⟩ =
      (sequenceDecode decodeBool (some (.arr xs))).map .SetAutomine from rfl,
      isOk_map]
    exact sequenceDecode_isOk_false _ xs hxs
  · rw [show decodeRequest ⟨"evm_setIntervalMining", some (.arr xs)⟩ =
      (sequenceDecode decodeU64 (some (.arr xs))).map .SetIntervalMining from rfl,
      isOk_map]
    exact sequenceDecode_isOk_false _ xs hxs
  · rw [show decodeRequest ⟨"forge_setCoinbase", some (.arr xs)⟩ =
      (sequenceDecode decodeAddress (some (.arr xs))).map .SetCoinbase from rfl,
      isOk_map]
    exact sequenceDecode_isOk_false _ xs hxs
  · rw [show decodeRequest ⟨"forge_setLoggingEnabled", some (.arr xs)⟩ =
      (sequenceDecode decodeBool (some (.arr xs))).map .SetLogging from rfl,
      isOk_map]
    exact sequenceDecode_isOk_false _ xs hxs
  · rw [show decodeRequest ⟨"forge_setMinGasPrice", some (.arr xs)⟩ =
      (sequenceDecode decodeU256 (some (.arr xs))).map .SetMinGasPrice from rfl,
      isOk_map]
    exact sequenceDecode_isOk_false _ xs hxs
  · rw [show decodeRequest ⟨"forge_setNextBlockBaseFeePerGas", some (.arr xs)⟩ =
      (sequenceDecode decodeU256 (some (.arr xs))).map
        .SetNextBlockBaseFeePerGas from rfl, isOk_map]
    exact sequenceDecode_isOk_false _ xs hxs
  · rw [show decodeRequest ⟨"evm_revert", some (.arr xs)⟩ =
      (sequenceDecode decodeU256 (some (.arr xs))).map .EvmRevert from rfl,
      isOk_map]
    exact sequenceDecode_isOk_false _ xs hxs
  · rw [show decodeRequest ⟨"evm_increaseTime", some (.arr xs)⟩ =
      (sequenceDecode decodeU256 (some (.arr xs))).map .EvmIncreaseTime from rfl,
      isOk_map]
    exact sequenceDecode_isOk_false _ xs hxs
  · rw [show decodeRequest ⟨"evm_setNextBlockTimestamp", some (.arr xs)⟩ =
      (sequenceDecode decodeU64 (some (.arr xs))).map
        .EvmSetNextBlockTimeStamp from rfl, isOk_map]
    exact sequenceDecode_isOk_false _ xs hxs
  · rw [show decodeRequest ⟨"evm_mine", some (.arr xs)⟩ =
      (sequenceDecode decodeEvmMineOptions (some (.arr xs))).map .EvmMine from rfl,
      isOk_map]
    exact sequenceDecode_isOk_false _ xs hxs

/-- Witness for **C8** at the empty params array. -/
theorem sequence_codec_requires_one_param_witness :
    (decodeRequest ⟨"eth_sendTransaction", some (.arr [])⟩).isOk = false :=
  (sequence_codec_requires_one_param [] (by simp)).1

/-- **C1 (amended).** Dual numeric encodings hold exactly where
`deserialize_number`/`deserialize_number_opt` are actually consulted: for
every `n < 2^64`, the tuple-variant numeric parameters of
`forge_setBalance`, `forge_setNonce`, `forge_mine` and `eth_feeHistory`
decode identically from the native literal and from the hex string; but
the `u64` parameters of `evm_setIntervalMining` and
`evm_setNextBlockTimestamp` accept only native literals (every hex string
is rejected), and the `sequence`-wrapped `U256` parameters of
`evm_revert`, `evm_increaseTime`, `forge_setMinGasPrice` and
`forge_setNextBlockBaseFeePerGas` accept only hex strings (the
variant-level `sequence` codec bypasses the field-level
`deserialize_number`, so native literals are rejected). -/
theorem numeric_dual_encoding (n : Nat) (hn : n < 2 ^ 64)
    (ja : Json) (a : Address) (ha : decodeAddress ja = .ok a) :
    deserialize_number (.num n) = .ok n ∧
    deserialize_number (.str (hexString n)) = .ok n ∧
    decodeRequest ⟨"forge_setBalance", some (.arr [ja, .num n])⟩ =
      .ok (.SetBalance a n) ∧
    decodeRequest ⟨"forge_setBalance", some (.arr [ja, .str (hexString n)])⟩ =
      .ok (.SetBalance a n) ∧
    decodeRequest ⟨"forge_setNonce", some (.arr [ja, .num n])⟩ =
      .ok (.SetNonce a n) ∧
    decodeRequest ⟨"forge_setNonce", some (.arr [ja, .str (hexString n)])⟩ =
      .ok (.SetNonce a n) ∧
    decodeRequest ⟨"forge_mine", some (.arr [.num n])⟩ =
      .ok (.Mine (some n) none) ∧
    decodeRequest ⟨"forge_mine", some (.arr [.str (hexString n)])⟩ =
      .ok (.Mine (some n) none) ∧
    decodeRequest ⟨"eth_feeHistory", some (.arr [.num n, .str "latest"])⟩ =
      .ok (.EthFeeHistory n .latest []) ∧
    decodeRequest ⟨"eth_feeHistory",
      some (.arr [.str (hexString n), .str "latest"])⟩ =
      .ok (.EthFeeHistory n .latest []) ∧
    decodeRequest ⟨"evm_setIntervalMining", some (.arr [.num n])⟩ =
      .ok (.SetIntervalMining n) ∧
    (∀ s, (decodeRequest ⟨"evm_setIntervalMining",
      some (.arr [.str s])⟩).isOk = false) ∧
    decodeRequest ⟨"evm_setNextBlockTimestamp", some (.arr [.num n])⟩ =
      .ok (.EvmSetNextBlockTimeStamp n) ∧
    (∀ s, (decodeRequest ⟨"evm_setNextBlockTimestamp",
      some (.arr [.str s])⟩).isOk = false) ∧
    decodeRequest ⟨"evm_revert", some (.arr [.str (hexString n)])⟩ =
      .ok (.EvmRevert n) ∧
    (decodeRequest ⟨"evm_revert", some (.arr [.num n])⟩).isOk = false ∧
    decodeRequest ⟨"evm_increaseTime", some (.arr [.str (hexString n)])⟩ =
      .ok (.EvmIncreaseTime n) ∧
    (decodeRequest ⟨"evm_increaseTime", some (.arr [.num n])⟩).isOk = false ∧
    decodeRequest ⟨"forge_setMinGasPrice", some (.arr [.str (hexString n)])⟩ =
      .ok (.SetMinGasPrice n) ∧
    (decodeRequest ⟨"forge_setMinGasPrice", some (.arr [.num n])⟩).isOk =
      false ∧
    decodeRequest ⟨"forge_setNextBlockBaseFeePerGas",
      some (.arr [.str (hexString n)])⟩ =
      .ok (.SetNextBlockBaseFeePerGas n) ∧
    (decodeRequest ⟨"forge_setNextBlockBaseFeePerGas",
      some (.arr [.num n])⟩).isOk = false := by
  have hn256 : n < 2 ^ 256 := lt_trans hn (by norm_num)
  refine ⟨deserialize_number_num n hn, deserialize_number_hexString n hn256,
    ?_, ?_, ?_, ?_, ?_, ?_, ?_, ?_, ?_, ?_, ?_, ?_, ?_, ?_, ?_, ?_, ?_, ?_, ?_, ?_⟩
  · rw [decodeRequest_setBalance]
    simp [seqContent, reqField, endSeq, ha, deserialize_number_num n hn,
      Bind.bind, Except.bind, Except.map, pure, Except.pure]
  · rw [decodeRequest_setBalance]
    simp [seqContent, reqField, endSeq, ha, deserialize_number_hexString n hn256,
      Bind.bind, Except.bind, Except.map, pure, Except.pure]
  · rw [decodeRequest_setNonce]
    simp [seqContent, reqField, endSeq, ha, deserialize_number_num n hn,
      Bind.bind, Except.bind, Except.map, pure, Except.pure]
  · rw [decodeRequest_setNonce]
    simp [seqContent, reqField, endSeq, ha, deserialize_number_hexString n hn256,
      Bind.bind, Except.bind, Except.map, pure, Except.pure]
  · rw [decodeRequest_mine]
    simp [seqContent, optField, endSeq, deserialize_number_opt,
      deserialize_number_num n hn,
      Bind.bind, Except.bind, Except.map, pure, Except.pure]
  · rw [decodeRequest_mine]
    simp [seqContent, optField, endSeq, deserialize_number_opt,
      deserialize_number_hexString n hn256,
      Bind.bind, Except.bind, Except.map, pure, Except.pure]
  · rw [decodeRequest_feeHistory]
    simp [seqContent, reqField, optField, endSeq, decodeBlockNumber,
      deserialize_number_num n hn,
      Bind.bind, Except.bind, Except.map, pure, Except.pure]
  · rw [decodeRequest_feeHistory]
    simp [seqContent, reqField, optField, endSeq, decodeBlockNumber,
      deserialize_number_hexString n hn256,
      Bind.bind, Except.bind, Except.map, pure, Except.pure]
  · rw [decodeRequest_setIntervalMining]
    simp [sequenceDecode, seqContent, decodeVec, decodeU64_num n hn,
      Bind.bind, Except.bind, Except.map, pure, Except.pure]
  · intro s
    rw [decodeRequest_setIntervalMining, isOk_map]
    simp [sequenceDecode, seqContent, decodeVec, decodeU64,
      Bind.bind, Except.bind, Except.map, pure, Except.pure,
      Except.isOk, Except.toBool]
  · rw [decodeRequest_setNextBlockTimestamp]
    simp [sequenceDecode, seqContent, decodeVec, decodeU64_num n hn,
      Bind.bind, Except.bind, Except.map, pure, Except.pure]
  · intro s
    rw [decodeRequest_setNextBlockTimestamp, isOk_map]
    simp [sequenceDecode, seqContent, decodeVec, decodeU64,
      Bind.bind, Except.bind, Except.map, pure, Except.pure,
      Except.isOk, Except.toBool]
  · rw [decodeRequest_revert]
    simp [sequenceDecode, seqContent, decodeVec, decodeU256_hexString n hn256,
      Bind.bind, Except.bind, Except.map, pure, Except.pure]
  · rw [decodeRequest_revert, isOk_map]
    simp [sequenceDecode, seqContent, decodeVec, decodeU256,
      Bind.bind, Except.bind, Except.map, pure, Except.pure,
      Except.isOk, Except.toBool]
  · rw [decodeRequest_increaseTime]
    simp [sequenceDecode, seqContent, decodeVec, decodeU256_hexString n hn256,
      Bind.bind, Except.bind, Except.map, pure, Except.pure]
  · rw [decodeRequest_increaseTime, isOk_map]
    simp [sequenceDecode, seqContent, decodeVec, decodeU256,
      Bind.bind, Except.bind, Except.map, pure, Except.pure,
      Except.isOk, Except.toBool]
  · rw [decodeRequest_setMinGasPrice]
    simp [sequenceDecode, seqContent, decodeVec, decodeU256_hexString n hn256,
      Bind.bind, Except.bind, Except.map, pure, Except.pure]
  · rw [decodeRequest_setMinGasPrice, isOk_map]
    simp [sequenceDecode, seqContent, decodeVec, decodeU256,
      Bind.bind, Except.bind, Except.map, pure, Except.pure,
      Except.isOk, Except.toBool]
  · rw [decodeRequest_setNextBlockBaseFee]
    simp [sequenceDecode, seqContent, decodeVec, decodeU256_hexString n hn256,
      Bind.bind, Except.bind, Except.map, pure, Except.pure]
  · rw [decodeRequest_setNextBlockBaseFee, isOk_map]
    simp [sequenceDecode, seqContent, decodeVec, decodeU256,
      Bind.bind, Except.bind, Except.map, pure, Except.pure,
      Except.isOk, Except.toBool]

/-- A valid address JSON value (for witnesses). -/
def addrJsonW : Json := .str "0xd84de507f3fada7df80908082d3239466db55a71"

/-- The numeric value of `addrJsonW`. -/
def addrW : Address := 0xd84de507f3fada7df80908082d3239466db55a71

/-- Witness for **C1 (amended)** at `n = 5` and a concrete address. -/
theorem numeric_dual_encoding_witness :
    decodeRequest ⟨"forge_setBalance", some (.arr [addrJsonW, .num 5])⟩ =
      .ok (.SetBalance addrW 5) ∧
    decodeRequest ⟨"forge_setBalance",
      some (.arr [addrJsonW, .str (hexString 5)])⟩ =
      .ok (.SetBalance addrW 5) ∧
    (decodeRequest ⟨"evm_revert", some (.arr [.num 5])⟩).isOk = false :=
  have h := numeric_dual_encoding 5 (by norm_num) addrJsonW addrW rfl
  ⟨h.2.2.1, h.2.2.2.1, h.2.2.2.2.2.2.2.2.2.2.2.2.2.2.2.1⟩

/-- **C2 (amended).** For `eth_getBalance`, `eth_getStorageAt`,
`eth_getTransactionCount` and `eth_getCode` the trailing block-tag
parameter must be present in the params array — passing JSON `null`
decodes it as `None`, but omitting the element is rejected with an
invalid-length error; only `eth_call` and `eth_estimateGas` (whose tag
field is `#[serde(default)]`) decode the omitted form, as `None`. -/
theorem read_block_tag_presence (ja : Json) (a : Address)
    (ha : decodeAddress ja = .ok a)
    (jk : Json) (k : U256) (hk : decodeU256 jk = .ok k)
    (jc : Json) (c : CallRequest) (hc : decodeCallRequest jc = .ok c) :
    decodeRequest ⟨"eth_getBalance", some (.arr [ja, .null])⟩ =
      .ok (.EthGetBalance a none) ∧
    decodeRequest ⟨"eth_getBalance", some (.arr [ja, .str "latest"])⟩ =
      .ok (.EthGetBalance a (some .latest)) ∧
    (decodeRequest ⟨"eth_getBalance", some (.arr [ja])⟩).isOk = false ∧
    decodeRequest ⟨"eth_getTransactionCount", some (.arr [ja, .null])⟩ =
      .ok (.EthGetTransactionCount a none) ∧
    (decodeRequest ⟨"eth_getTransactionCount", some (.arr [ja])⟩).isOk =
      false ∧
    decodeRequest ⟨"eth_getCode", some (.arr [ja, .null])⟩ =
      .ok (.EthGetCodeAt a none) ∧
    (decodeRequest ⟨"eth_getCode", some (.arr [ja])⟩).isOk = false ∧
    decodeRequest ⟨"eth_getStorageAt", some (.arr [ja, jk, .null])⟩ =
      .ok (.EthGetStorageAt a k none) ∧
    (decodeRequest ⟨"eth_getStorageAt", some (.arr [ja, jk])⟩).isOk = false ∧
    decodeRequest ⟨"eth_call", some (.arr [jc])⟩ = .ok (.EthCall c none) ∧
    decodeRequest ⟨"eth_call", some (.arr [jc, .str "latest"])⟩ =
      .ok (.EthCall c (some .latest)) ∧
    decodeRequest ⟨"eth_estimateGas", some (.arr [jc])⟩ =
      .ok (.EthEstimateGas c none) := by
  refine ⟨?_, ?_, ?_, ?_, ?_, ?_, ?_, ?_, ?_, ?_, ?_, ?_⟩
  · rw [decodeRequest_getBalance]
    simp [seqContent, reqField, endSeq, decodeOption, ha,
      Bind.bind, Except.bind, Except.map, pure, Except.pure]
  · rw [decodeRequest_getBalance]
    simp [seqContent, reqField, endSeq, decodeOption, decodeBlockNumber, ha,
      Bind.bind, Except.bind, Except.map, pure, Except.pure]
  · rw [decodeRequest_getBalance]
    simp [seqContent, reqField, endSeq, decodeOption, ha,
      Bind.bind, Except.bind, Except.map, pure, Except.pure,
      Except.isOk, Except.toBool]
  · rw [decodeRequest_getTransactionCount]
    simp [seqContent, reqField, endSeq, decodeOption, ha,
      Bind.bind, Except.bind, Except.map, pure, Except.pure]
  · rw [decodeRequest_getTransactionCount]
    simp [seqContent, reqField, endSeq, decodeOption, ha,
      Bind.bind, Except.bind, Except.map, pure, Except.pure,
      Except.isOk, Except.toBool]
  · rw [decodeRequest_getCode]
    simp [seqContent, reqField, endSeq, decodeOption, ha,
      Bind.bind, Except.bind, Except.map, pure, Except.pure]
  · rw [decodeRequest_getCode]
    simp [seqContent, reqField, endSeq, decodeOption, ha,
      Bind.bind, Except.bind, Except.map, pure, Except.pure,
      Except.isOk, Except.toBool]
  · rw [decodeRequest_getStorageAt]
    simp [seqContent, reqField, endSeq, decodeOption, ha, hk,
      Bind.bind, Except.bind, Except.map, pure, Except.pure]
  · rw [decodeRequest_getStorageAt]
    simp [seqContent, reqField, endSeq, decodeOption, ha, hk,
      Bind.bind, Except.bind, Except.map, pure, Except.pure,
      Except.isOk, Except.toBool]
  · rw [decodeRequest_call]
    simp [seqContent, reqField, optField, endSeq, decodeOption, hc,
      Bind.bind, Except.bind, Except.map, pure, Except.pure]
  · rw [decodeRequest_call]
    simp [seqContent, reqField, optField, endSeq, decodeOption,
      decodeBlockNumber, hc,
      Bind.bind, Except.bind, Except.map, pure, Except.pure]
  · rw [decodeRequest_estimateGas]
    simp [seqContent, reqField, optField, endSeq, decodeOption, hc,
      Bind.bind, Except.bind, Except.map, pure, Except.pure]

/-- Witness for **C2 (amended)** at concrete parameter values. -/
theorem read_block_tag_presence_witness :
    decodeRequest ⟨"eth_getBalance", some (.arr [addrJsonW, .null])⟩ =
      .ok (.EthGetBalance addrW none) ∧
    (decodeRequest ⟨"eth_getBalance", some (.arr [addrJsonW])⟩).isOk = false ∧
    decodeRequest ⟨"eth_call", some (.arr [.obj []])⟩ =
      .ok (.EthCall ⟨[]⟩ none) :=
  have h := read_block_tag_presence addrJsonW addrW rfl (.str "0x0") 0 rfl
    (.obj []) ⟨[]⟩ rfl
  ⟨h.1, h.2.2.1, h.2.2.2.2.2.2.2.2.2.1⟩

/-- **C7.** The mine-N-blocks operation (`forge_mine` / `hardhat_mine`)
decodes with both parameters optional: the empty params array, a single
block count, and a count plus interval all decode; every omitted
parameter decodes as `None`, and every present parameter is accepted
both as a native numeric literal and as its hex-string form. -/
theorem mine_params_both_optional (n m : Nat) (hn : n < 2 ^ 64)
    (hm : m < 2 ^ 64) :
    decodeRequest ⟨"forge_mine", some (.arr [])⟩ = .ok (.Mine none none) ∧
    decodeRequest ⟨"forge_mine", some (.arr [.num n])⟩ =
      .ok (.Mine (some n) none) ∧
    decodeRequest ⟨"forge_mine", some (.arr [.str (hexString n)])⟩ =
      .ok (.Mine (some n) none) ∧
    decodeRequest ⟨"forge_mine", some (.arr [.num n, .num m])⟩ =
      .ok (.Mine (some n) (some m)) ∧
    decodeRequest ⟨"forge_mine", some (.arr [.num n, .str (hexString m)])⟩ =
      .ok (.Mine (some n) (some m)) ∧
    decodeRequest ⟨"forge_mine", some (.arr [.str (hexString n), .num m])⟩ =
      .ok (.Mine (some n) (some m)) ∧
    decodeRequest ⟨"forge_mine",
      some (.arr [.str (hexString n), .str (hexString m)])⟩ =
      .ok (.Mine (some n) (some m)) := by
  have hn256 : n < 2 ^ 256 := lt_trans hn (by norm_num)
  have hm256 : m < 2 ^ 256 := lt_trans hm (by norm_num)
  refine ⟨?_, ?_, ?_, ?_, ?_, ?_, ?_⟩ <;>
  · rw [decodeRequest_mine]
    simp [seqContent, optField, endSeq, deserialize_number_opt,
      deserialize_number_num n hn, deserialize_number_num m hm,
      deserialize_number_hexString n hn256, deserialize_number_hexString m hm256,
      Bind.bind, Except.bind, Except.map, pure, Except.pure]

/-- Witness for **C7** at `n = 3`, `m = 12`. -/
theorem mine_params_both_optional_witness :
    decodeRequest ⟨"forge_mine", some (.arr [])⟩ = .ok (.Mine none none) ∧
    decodeRequest ⟨"forge_mine", some (.arr [.num 3, .str (hexString 12)])⟩ =
      .ok (.Mine (some 3) (some 12)) :=
  have h := mine_params_both_optional 3 12 (by norm_num) (by norm_num)
  ⟨h.1, h.2.2.2.2.1⟩

/-- **C6 (amended).** Every developer extension decodes to its own
distinct typed operation with exactly the parameters of its variant: an
address for impersonate but **no payload** for stop-impersonating, no
payload for get-automine and snapshot, an on/off flag for set-automine
and logging, a seconds value for the fixed mining interval, a hash for
drop-transaction, an optional fork config for reset, address plus value
for set balance/code/nonce (and address plus slot key plus value for the
storage-slot override), an address for set-coinbase, quantities for
minimum gas price and next block's base fee, an id for revert, seconds
for advance-time and for the next block's exact timestamp, and
count/interval options both for `forge_mine` and for `evm_mine`. -/
theorem developer_extensions_payloads (n m : Nat) (hn : n < 2 ^ 64)
    (hm : m < 2 ^ 64) (b : Bool) (u : String)
    (ja : Json) (a : Address) (ha : decodeAddress ja = .ok a)
    (jh : Json) (h : H256) (hh : decodeH256 jh = .ok h)
    (jb : Json) (bs : List Nat) (hb : decodeBytes jb = .ok bs) :
    decodeRequest ⟨"forge_impersonateAccount", some (.arr [ja])⟩ =
      .ok (.ImpersonateAccount a) ∧
    decodeRequest ⟨"forge_stopImpersonatingAccount", none⟩ =
      .ok .StopImpersonatingAccount ∧
    decodeRequest ⟨"forge_getAutomine", none⟩ = .ok .GetAutoMine ∧
    decodeRequest ⟨"evm_setAutomine", some (.arr [.bool b])⟩ =
      .ok (.SetAutomine b) ∧
    decodeRequest ⟨"evm_setIntervalMining", some (.arr [.num n])⟩ =
      .ok (.SetIntervalMining n) ∧
    decodeRequest ⟨"forge_dropTransaction", some (.arr [jh])⟩ =
      .ok (.DropTransaction h) ∧
    decodeRequest ⟨"forge_reset", some (.arr [.obj [("forking",
      .obj [("jsonRpcUrl", .str u), ("blockNumber", .num m)])]])⟩ =
      .ok (.Reset ⟨some ⟨some u, some m⟩⟩) ∧
    decodeRequest ⟨"forge_reset", some (.arr [.obj []])⟩ =
      .ok (.Reset ⟨none⟩) ∧
    decodeRequest ⟨"forge_setBalance",
      some (.arr [ja, .str (hexString n)])⟩ = .ok (.SetBalance a n) ∧
    decodeRequest ⟨"forge_setCode", some (.arr [ja, jb])⟩ =
      .ok (.SetCode a bs) ∧
    decodeRequest ⟨"forge_setNonce",
      some (.arr [ja, .str (hexString n)])⟩ = .ok (.SetNonce a n) ∧
    decodeRequest ⟨"forge_setStorageAt",
      some (.arr [ja, .str (hexString n), .str (hexString m)])⟩ =
      .ok (.SetStorageAt a n m) ∧
    decodeRequest ⟨"forge_setCoinbase", some (.arr [ja])⟩ =
      .ok (.SetCoinbase a) ∧
    decodeRequest ⟨"forge_setLoggingEnabled", some (.arr [.bool b])⟩ =
      .ok (.SetLogging b) ∧
    decodeRequest ⟨"forge_setMinGasPrice",
      some (.arr [.str (hexString n)])⟩ = .ok (.SetMinGasPrice n) ∧
    decodeRequest ⟨"forge_setNextBlockBaseFeePerGas",
      some (.arr [.str (hexString n)])⟩ =
      .ok (.SetNextBlockBaseFeePerGas n) ∧
    decodeRequest ⟨"evm_snapshot", none⟩ = .ok .EvmSnapshot ∧
    decodeRequest ⟨"evm_revert", some (.arr [.str (hexString n)])⟩ =
      .ok (.EvmRevert n) ∧
    decodeRequest ⟨"evm_increaseTime", some (.arr [.str (hexString n)])⟩ =
      .ok (.EvmIncreaseTime n) ∧
    decodeRequest ⟨"evm_setNextBlockTimestamp", some (.arr [.num n])⟩ =
      .ok (.EvmSetNextBlockTimeStamp n) ∧
    decodeRequest ⟨"forge_mine",
      some (.arr [.str (hexString n), .str (hexString m)])⟩ =
      .ok (.Mine (some n) (some m)) ∧
    decodeRequest ⟨"evm_mine", some (.arr [.obj [("timestamp", .num n),
      ("blocks", .num m)]])⟩ = .ok (.EvmMine ⟨some n, some m⟩) := by
  have hn256 : n < 2 ^ 256 := lt_trans hn (by norm_num)
  have hm256 : m < 2 ^ 256 := lt_trans hm (by norm_num)
  refine ⟨?_, rfl, rfl, ?_, ?_, ?_, ?_, ?_, ?_, ?_, ?_, ?_, ?_, ?_, ?_, ?_,
    rfl, ?_, ?_, ?_, ?_, ?_⟩
  · rw [decodeRequest_impersonate]
    simp [sequenceDecode, seqContent, decodeVec, ha,
      Bind.bind, Except.bind, Except.map, pure, Except.pure]
  · rw [decodeRequest_setAutomine]
    simp [sequenceDecode, seqContent, decodeVec, decodeBool,
      Bind.bind, Except.bind, Except.map, pure, Except.pure]
  · rw [decodeRequest_setIntervalMining]
    simp [sequenceDecode, seqContent, decodeVec, decodeU64_num n hn,
      Bind.bind, Except.bind, Except.map, pure, Except.pure]
  · rw [decodeRequest_dropTransaction]
    simp [sequenceDecode, seqContent, decodeVec, hh,
      Bind.bind, Except.bind, Except.map, pure, Except.pure]
  · rw [decodeRequest_reset]
    simp [sequenceDecode, seqContent, decodeVec, decodeForking,
      decodeForkConfig, jsonLookup,
      Bind.bind, Except.bind, Except.map, pure, Except.pure]
  · rw [decodeRequest_reset]
    simp [sequenceDecode, seqContent, decodeVec, decodeForking, jsonLookup,
      Bind.bind, Except.bind, Except.map, pure, Except.pure]
  · rw [decodeRequest_setBalance]
    simp [seqContent, reqField, endSeq, ha, deserialize_number_hexString n hn256,
      Bind.bind, Except.bind, Except.map, pure, Except.pure]
  · rw [decodeRequest_setCode]
    simp [seqContent, reqField, endSeq, ha, hb,
      Bind.bind, Except.bind, Except.map, pure, Except.pure]
  · rw [decodeRequest_setNonce]
    simp [seqContent, reqField, endSeq, ha, deserialize_number_hexString n hn256,
      Bind.bind, Except.bind, Except.map, pure, Except.pure]
  · rw [decodeRequest_setStorageAt]
    simp [seqContent, reqField, endSeq, ha, decodeU256_hexString n hn256,
      decodeU256_hexString m hm256,
      Bind.bind, Except.bind, Except.map, pure, Except.pure]
  · rw [decodeRequest_setCoinbase]
    simp [sequenceDecode, seqContent, decodeVec, ha,
      Bind.bind, Except.bind, Except.map, pure, Except.pure]
  · rw [decodeRequest_setLogging]
    simp [sequenceDecode, seqContent, decodeVec, decodeBool,
      Bind.bind, Except.bind, Except.map, pure, Except.pure]
  · rw [decodeRequest_setMinGasPrice]
    simp [sequenceDecode, seqContent, decodeVec, decodeU256_hexString n hn256,
      Bind.bind, Except.bind, Except.map, pure, Except.pure]
  · rw [decodeRequest_setNextBlockBaseFee]
    simp [sequenceDecode, seqContent, decodeVec, decodeU256_hexString n hn256,
      Bind.bind, Except.bind, Except.map, pure, Except.pure]
  · rw [decodeRequest_revert]
    simp [sequenceDecode, seqContent, decodeVec, decodeU256_hexString n hn256,
      Bind.bind, Except.bind, Except.map, pure, Except.pure]
  · rw [decodeRequest_increaseTime]
    simp [sequenceDecode, seqContent, decodeVec, decodeU256_hexString n hn256,
      Bind.bind, Except.bind, Except.map, pure, Except.pure]
  · rw [decodeRequest_setNextBlockTimestamp]
    simp [sequenceDecode, seqContent, decodeVec, decodeU64_num n hn,
      Bind.bind, Except.bind, Except.map, pure, Except.pure]
  · rw [decodeRequest_mine]
    simp [seqContent, optField, endSeq, deserialize_number_opt,
      deserialize_number_hexString n hn256, deserialize_number_hexString m hm256,
      Bind.bind, Except.bind, Except.map, pure, Except.pure]
  · rw [decodeRequest_evmMine]
    simp [sequenceDecode, seqContent, decodeVec, decodeEvmMineOptions,
      jsonLookup, Bind.bind, Except.bind, Except.map, pure, Except.pure]

/-- Witness for **C6 (amended)** at concrete parameter values. -/
theorem developer_extensions_payloads_witness :
    decodeRequest ⟨"forge_impersonateAccount", some (.arr [addrJsonW])⟩ =
      .ok (.ImpersonateAccount addrW) ∧
    decodeRequest ⟨"forge_stopImpersonatingAccount", none⟩ =
      .ok .StopImpersonatingAccount ∧
    decodeRequest ⟨"forge_setCode", some (.arr [addrJsonW, .str "0x00ff"])⟩ =
      .ok (.SetCode addrW [0, 255]) :=
  have h := developer_extensions_payloads 5 7 (by norm_num) (by norm_num)
    true "u" addrJsonW addrW rfl
    (.str "0x0000000000000000000000000000000000000000000000000000000000000001")
    1 rfl (.str "0x00ff") [0, 255] rfl
  ⟨h.1, h.2.1, h.2.2.2.2.2.2.2.2.2.1⟩

end Spec2Proof
